import Mathlib

/-!
# Verification of the video-streamer RTSP server

A shallow embedding, in Lean 4, of the core logic of the `video-streamer`
repository (Go): the RTSP handler state machine (`internal/server` and the
unnamed handler file), the source-reader dispatch (`internal/streamer`),
the H.264 SPS/PPS byte-stream scanners (`internal/utils/video_utils.go`),
the MJPEG pipe reader's buffer management (`internal/streamer/mjpeg.go`),
and the MPEG-TS pacing/packetizing loop (`internal/streamer/mjpeg-ts.go`).

Bytes are modelled as `Nat` (values < 256 in all concrete instances; the
only bit operation used by the code, `& 0x1F`, is modelled as `% 32`,
which agrees on all byte values). Timestamps use `Int`/`Nat` with explicit
`% 2^32` where the Go code converts to `uint32`. Go functions that can
panic are modelled with `Option`, `none` denoting a panic.
-/

namespace VideoStreamer

/-! ## Data model: media descriptions (gortsplib `description.Session`) -/

/-- Media type of a description entry (`description.MediaTypeVideo`, ...). -/
inductive MediaType
  | video
  | audio
  | application
  deriving DecidableEq, Repr

/-- The fields of gortsplib's `format.H264` that this repository sets. -/
structure H264Fmt where
  payloadTyp : Nat
  packetizationMode : Nat
  sps : List Nat
  pps : List Nat
  deriving DecidableEq, Repr

/-- A media format: either an H.264 format record or some other codec. -/
inductive MediaFormat
  | h264 (f : H264Fmt)
  | generic (name : String)
  deriving DecidableEq, Repr

/-- Whether a format is the H.264 format (what `FindFormat(&forma *format.H264)`
matches on). -/
def MediaFormat.isH264 : MediaFormat → Bool
  | .h264 _ => true
  | .generic _ => false

/-- One media entry of a session description. -/
structure Media where
  type : MediaType
  formats : List MediaFormat
  deriving DecidableEq, Repr

/-- A session description: an ordered list of media entries. -/
structure SessionDescription where
  medias : List Media
  deriving DecidableEq, Repr

/-- `ctx.Description.FindFormat(&forma *format.H264)`: the first media of the
description containing a format of type `format.H264`, or `none`. -/
def findH264Media (d : SessionDescription) : Option Media :=
  d.medias.find? (fun m => m.formats.any MediaFormat.isH264)

/-! ## RTSP handler state machine (`Handler` in the unnamed server file)

The handler owns `stream *gortsplib.ServerStream` and
`publisher *gortsplib.ServerSession`.  We model a server stream by its
description plus a `closed` flag (set by `stream.Close()`), sessions by
numeric ids, and record the ids of sessions on which `Close()` was called.
A Go nil-pointer dereference (calling `Close` on a nil publisher or nil
stream) is modelled as `none` (panic). -/

/-- Model of a `gortsplib.ServerStream`: its description and whether
`Close()` has been called on it. -/
structure StreamModel where
  desc : SessionDescription
  closed : Bool
  deriving DecidableEq, Repr

/-- The handler's mutable state: `h.stream` and `h.publisher`, plus the
history of publisher sessions that were closed via `Close()`. -/
structure HandlerState where
  stream : Option StreamModel
  publisher : Option Nat
  closedSessions : List Nat
  deriving DecidableEq, Repr

/-- RTSP response status codes used by the handler. -/
inductive RTSPStatus
  | ok
  | notFound
  | badRequest
  deriving DecidableEq, Repr

/-- `Handler.OnAnnounce`.  Returns `none` when the Go code would panic
(nil-pointer dereference on `h.publisher.Close()` or `h.stream.Close()`).
Otherwise returns the new handler state, the response status, and whether a
non-nil error accompanies the response. -/
def onAnnounce (h : HandlerState) (sess : Nat) (d : SessionDescription) :
    Option (HandlerState × RTSPStatus × Bool) :=
  -- if h.stream != nil { h.stream.Close(); h.publisher.Close() }
  let step1 : Option HandlerState :=
    match h.stream, h.publisher with
    | some s, some p =>
        some { h with stream := some { s with closed := true },
                      closedSessions := p :: h.closedSessions }
    | some _, none => none        -- h.publisher is nil: panic
    | none, _ => some h
  match step1 with
  | none => none
  | some h1 =>
    -- if h.publisher != nil { h.stream.Close(); h.publisher.Close() }
    let step2 : Option HandlerState :=
      match h1.publisher, h1.stream with
      | some p, some s =>
          some { h1 with stream := some { s with closed := true },
                         closedSessions := p :: h1.closedSessions }
      | some _, none => none      -- h.stream is nil: panic
      | none, _ => some h1
    match step2 with
    | none => none
    | some h2 =>
      -- medi := ctx.Description.FindFormat(&forma); if medi == nil { BadRequest }
      match findH264Media d with
      | none => some (h2, .badRequest, true)
      | some _ =>
          -- create the stream and save the publisher
          some ({ h2 with stream := some { desc := d, closed := false },
                          publisher := some sess }, .ok, false)

/-- `Handler.OnDescribe`: "not found" when no stream is installed, else OK
with the current stream. -/
def onDescribe (h : HandlerState) : RTSPStatus × Option StreamModel :=
  match h.stream with
  | none => (.notFound, none)
  | some s => (.ok, some s)

/-! ## `StartServer` (file-backed initialization, unnamed server file)

`StartServer` builds the stream description from the extracted H.264
parameters (or a fallback without SPS/PPS), installs the stream in the
handler, and never sets `h.publisher`. -/

/-- The `format.H264` value built by `StartServer` from the extraction
result (`none` models the `h264Params == nil` fallback branch; Go nil byte
slices are modelled as `[]`). -/
def startServerH264Format (h264Params : Option (List Nat × List Nat)) : MediaFormat :=
  match h264Params with
  | some (sps, pps) =>
      .h264 { payloadTyp := 96, packetizationMode := 1, sps := sps, pps := pps }
  | none =>
      .h264 { payloadTyp := 96, packetizationMode := 1, sps := [], pps := [] }

/-- The `description.Session` literal built by `StartServer`: a single
video media holding the H.264 format. -/
def startServerDesc (h264Params : Option (List Nat × List Nat)) : SessionDescription :=
  { medias := [{ type := .video, formats := [startServerH264Format h264Params] }] }

/-- Handler state after `StartServer` finishes initialization (stream
installed via `h.SetStream`, publisher never set). -/
def startServerHandler (h264Params : Option (List Nat × List Nat)) : HandlerState :=
  { stream := some { desc := startServerDesc h264Params, closed := false },
    publisher := none, closedSessions := [] }

/-- Handler state at process start, before `StartServer` installs the
stream (both fields are Go nil). -/
def initialHandler : HandlerState :=
  { stream := none, publisher := none, closedSessions := [] }

/-! ## Source-reader dispatch (`streamer.NewFileStreamer`, `mp4.go`) -/

/-- The three concrete `FileStreamer` implementations. -/
inductive StreamerKind
  | mjpegts    -- MPEG-TS reader (`mjpegtsFileStreamer`)
  | mp4        -- container reader that transcodes first (`mp4FileStreamer`)
  | mjpeg      -- raw motion-JPEG pipe reader (`mjpegStreamer`)
  deriving DecidableEq, Repr

/-- `strings.HasSuffix(path, sfx)`. -/
def hasSuffix (path sfx : List Char) : Bool :=
  sfx.isSuffixOf path

/-- Outcome of `NewFileStreamer`: the Go function either panics or returns
a (non-nil) streamer; its signature has no error return. -/
inductive ConstructOutcome
  | panicked
  | built (k : StreamerKind)
  deriving DecidableEq, Repr

def tsExt : List Char := ['.', 't', 's']

def mp4Ext : List Char := ['.', 'm', 'p', '4']

/-- `NewFileStreamer(stream, filePath)`.  `statExists` models whether
`os.Stat` finds the file; `openOk` whether `os.Open`/`os.OpenFile`
succeeds.  Every failure path is a Go `panic`. -/
def newFileStreamer (statExists openOk : Bool) (filePath : List Char) : ConstructOutcome :=
  if !statExists then .panicked
  else if hasSuffix filePath tsExt then
    (if openOk then .built .mjpegts else .panicked)
  else if hasSuffix filePath mp4Ext then
    (if openOk then .built .mp4 else .panicked)
  else
    (if openOk then .built .mjpeg else .panicked)

/-- Result of `mp4FileStreamer.Initialize`. -/
inductive MP4InitResult
  | errInvalid                    -- os.ErrInvalid: file not opened
  | errTranscode (msg : String)   -- "failed to convert MP4 to TS: ..."
  | errOpenConverted (msg : String)
  | startedTSRun                  -- success: background TS run started
  deriving DecidableEq, Repr

/-- `mp4FileStreamer.Initialize`: transcode once via `utils.MP4ToTS`
(modelled by its result), open the converted file, start the TS run.  A
transcode failure aborts initialization with an error; there is no retry. -/
def mp4Initialize (fileOpened : Bool) (transcode : Except String Unit)
    (openConverted : Except String Unit) : MP4InitResult :=
  if !fileOpened then .errInvalid
  else
    match transcode with
    | .error msg => .errTranscode msg
    | .ok _ =>
        match openConverted with
        | .error msg => .errOpenConverted msg
        | .ok _ => .startedTSRun

/-! ## The MPEG-TS pacing/packetizing loop (`mjpegtsFileStreamer.run`)

The `OnDataH264` callback receives per-access-unit timestamps already put
through the (external) `mpegts.TimeDecoder`; those decoded values are the
model's inputs.  The per-pass closure state (`firstDTS`, `firstTime`,
`lastRTPTime`, `foundIDR`) is re-created at every outer-loop iteration;
on end-of-file the code rewinds and sets `randomStart = lastRTPTime + 1`. -/

/-- One access unit as seen by the callback: decoded PTS/DTS (90 kHz
ticks) and the NAL units. -/
structure AccessUnit where
  pts : Int
  dts : Int
  nals : List (List Nat)
  deriving DecidableEq, Repr

/-- The callback's IDR-detection loop: some nonempty NAL unit has
low-5-bits type 5. -/
def auIsIDR (au : AccessUnit) : Bool :=
  au.nals.any (fun nal => !nal.isEmpty && nal.headD 0 % 32 == 5)

/-- `uint32(v)` for an `int64` value: reduce mod `2^32`. -/
def u32 (z : Int) : Nat :=
  (z % (2 ^ 32 : Int)).toNat

/-- The per-pass closure state of `mjpegtsFileStreamer.run`, plus the
observable history: RTP timestamps assigned (in order) and the sleep
performed before each emission. -/
structure PassState where
  foundIDR : Bool
  firstDTS : Option Int
  firstTime : Int
  lastRTPTime : Nat
  emitted : List Nat
  slept : List Int
  deriving DecidableEq, Repr

/-- The closure state at the start of a pass (Go zero values). -/
def initPassState : PassState :=
  { foundIDR := false, firstDTS := none, firstTime := 0,
    lastRTPTime := 0, emitted := [], slept := [] }

/-- The `OnDataH264` callback body for one access unit.  `now` is the
wall-clock instant (nanoseconds) at which the callback runs.  Returns the
updated state and `none` when the IDR gate skipped the unit, else
`some sleep` (the nanoseconds slept before emission).  The sleep formula
is Go's `time.Duration(dts-*firstDTS)*time.Second/90000 - time.Since(firstTime)`
with truncated (`tdiv`) division, slept only when positive. -/
def auStep (randomStart : Nat) (st : PassState) (au : AccessUnit) (now : Int) :
    PassState × Option Int :=
  if !st.foundIDR && !auIsIDR au then
    (st, none)
  else
    let st1 := { st with foundIDR := true }
    let (sleep, st2) :=
      match st1.firstDTS with
      | some f =>
          let drift := Int.tdiv ((au.dts - f) * 1000000000) 90000 - (now - st1.firstTime)
          (if drift > 0 then drift else 0, st1)
      | none => (0, { st1 with firstTime := now, firstDTS := some au.dts })
    let ts := u32 ((randomStart : Int) + au.pts)
    ({ st2 with lastRTPTime := ts, emitted := st2.emitted ++ [ts],
                slept := st2.slept ++ [sleep] }, some sleep)

/-- One whole pass over the file: fold the callback over the access units
(paired with their wall-clock arrival instants). -/
def runPass (randomStart : Nat) (aus : List (AccessUnit × Int)) : PassState :=
  aus.foldl (fun st x => (auStep randomStart st x.1 x.2).1) initPassState

/-- EOF handling: `randomStart = lastRTPTime + 1` (uint32 arithmetic). -/
def nextRandomStart (randomStart : Nat) (aus : List (AccessUnit × Int)) : Nat :=
  ((runPass randomStart aus).lastRTPTime + 1) % 2 ^ 32

/-- The outer loop: the same file content is replayed pass after pass
(the source timestamps reset each pass because the demuxer and time
decoder are re-created); the timestamp base is threaded through
`nextRandomStart`.  Returns the per-pass emitted RTP timestamp lists for
`n` passes. -/
def runPasses (randomStart : Nat) (aus : List (AccessUnit × Int)) : Nat → List (List Nat)
  | 0 => []
  | n + 1 =>
      (runPass randomStart aus).emitted ::
        runPasses (nextRandomStart randomStart aus) aus n

/-! ## The MJPEG pipe reader's buffer management (`mjpegStreamer.run`) -/

/-- Generic two-byte marker search: first index `i` with `l[i] = x` and
`l[i+1] = y`; `none` models Go's `-1`. -/
def findPair (x y : Nat) : List Nat → Option Nat
  | a :: b :: rest =>
      if a = x ∧ b = y then some 0
      else (findPair x y (b :: rest)).map (· + 1)
  | _ => none

/-- `findJPEGStart`: first `0xFF 0xD8`. -/
def findJPEGStart (data : List Nat) : Option Nat :=
  findPair 255 216 data

/-- `findJPEGEnd(data, start)`: first `0xFF 0xD9` at index ≥ `start`,
returning the index just past the end marker. -/
def findJPEGEnd (data : List Nat) (start : Nat) : Option Nat :=
  (findPair 255 217 (data.drop start)).map (· + start + 2)

theorem findPair_bound (x y : Nat) :
    ∀ (l : List Nat) (i : Nat), findPair x y l = some i → i + 2 ≤ l.length
  | a :: b :: rest, i, h => by
      rw [findPair] at h
      split at h
      · cases h
        simp
      · simp only [Option.map_eq_some'] at h
        obtain ⟨j, hj, rfl⟩ := h
        have := findPair_bound x y (b :: rest) j hj
        simp only [List.length_cons] at this ⊢
        omega

/-- The inner frame-extraction loop of `mjpegStreamer.run`: repeatedly
find a JPEG start marker (trimming the buffer to its last 10 bytes and
stopping when there is none), find the end marker from index 2 on, cut
the complete frame out of the buffer (frames shorter than 10 bytes are
skipped), and loop.  Returns the remaining buffer and the extracted
frames in order. -/
def processFrames (buffer : List Nat) : List Nat × List (List Nat) :=
  match hs : findJPEGStart buffer with
  | none =>
      (if buffer.length > 10 then buffer.drop (buffer.length - 10) else buffer, [])
  | some s =>
      -- buffer = buffer[jpegStart:]; jpegEnd = (idx + 2) + 2 relative to it;
      -- the frame is the first jpegEnd bytes, the rest is re-processed
      match he : findPair 255 217 ((buffer.drop s).drop 2) with
      | none => (buffer.drop s, [])
      | some idx =>
          ((processFrames ((buffer.drop s).drop (idx + 4))).1,
            if ((buffer.drop s).take (idx + 4)).length < 10 then
              (processFrames ((buffer.drop s).drop (idx + 4))).2
            else
              (buffer.drop s).take (idx + 4) ::
                (processFrames ((buffer.drop s).drop (idx + 4))).2)
termination_by buffer.length
decreasing_by
  all_goals
    have hb : s + 2 ≤ buffer.length := findPair_bound 255 216 buffer s hs
    simp only [List.length_drop]
    omega

/-- The 2 MiB buffer cap of `mjpegStreamer.run`. -/
def MJPEG_CAP : Nat := 2 * 1024 * 1024

/-- The cap step at the bottom of the outer read loop: when the buffer
exceeds 2 MiB, keep only its newest half (drop the oldest
`len(buffer)/2` bytes). -/
def capBuffer (b : List Nat) : List Nat :=
  if b.length > MJPEG_CAP then b.drop (b.length / 2) else b

/-- One iteration of the outer read loop: append the chunk read from the
pipe, run the frame-extraction loop, then apply the cap step.  (Only the
buffer is needed for the claims.) -/
def mjpegIter (buffer chunk : List Nat) : List Nat :=
  capBuffer (processFrames (buffer ++ chunk)).1

/-- The outer loop folded over a sequence of pipe reads, starting from
the empty buffer. -/
def mjpegRun (chunks : List (List Nat)) : List Nat :=
  chunks.foldl mjpegIter []

/-! ## H.264 parameter scanners (`internal/utils/video_utils.go`)

Three in-repo scanners matter to the claims:
`tryParseH264Parameters` (the direct byte-stream scan used on pipe data),
`parseH264Parameters` (used on the external decoder's Annex-B output and
on hex-decoded extradata), and the per-NAL loop of
`ExtractH264ParametersFromStream` (whose Annex-B splitting is external
library code, so the model takes the NAL-unit list as input). -/

/-- Go's `H264Parameters` struct; `none` models a nil byte slice. -/
structure H264Parameters where
  SPS : Option (List Nat)
  PPS : Option (List Nat)
  deriving DecidableEq, Repr

/-- The empty (zero-value) parameter struct. -/
def noParams : H264Parameters := { SPS := none, PPS := none }

/-- NAL-end scan of the 3-byte branch of `tryParseH264Parameters`
(`for nalEnd < len(data)-2 { break on 00 00 01 }`), expressed on the
suffix starting at `nalEnd`: consume bytes while at least 3 remain and
no 3-byte start code leads the suffix.  Returns (consumed bytes, suffix
at loop exit). -/
def spanT3 : List Nat → List Nat × List Nat
  | a :: b :: c :: rest =>
      if a = 0 ∧ b = 0 ∧ c = 1 then ([], a :: b :: c :: rest)
      else
        let r := spanT3 (b :: c :: rest)
        (a :: r.1, r.2)
  | s => ([], s)

/-- NAL-end scan of the 4-byte branch of `tryParseH264Parameters`
(`for nalEnd < len(data)-3 { break on 00 00 01 or 00 00 00 01 }`). -/
def spanT4 : List Nat → List Nat × List Nat
  | a :: b :: c :: d :: rest =>
      if a = 0 ∧ b = 0 ∧ (c = 1 ∨ (c = 0 ∧ d = 1)) then ([], a :: b :: c :: d :: rest)
      else
        let r := spanT4 (b :: c :: d :: rest)
        (a :: r.1, r.2)
  | s => ([], s)

/-- The `switch nalType` body of `tryParseH264Parameters`: first
occurrence wins, and only NAL units longer than 3 bytes are recorded. -/
def tryUpdate (ty : Nat) (nal : List Nat) (p : H264Parameters) : H264Parameters :=
  if ty = 7 then
    (if p.SPS = none ∧ nal.length > 3 then { p with SPS := some nal } else p)
  else if ty = 8 then
    (if p.PPS = none ∧ nal.length > 3 then { p with PPS := some nal } else p)
  else p

/-- Main loop of `tryParseH264Parameters`
(`for i := 0; i < len(data)-4; i++`): at each index, test for a 4-byte
start code, then for a 3-byte one (the two Go `if` blocks are mutually
exclusive, so `else if` is equivalent); on a match, extract the NAL via
the branch's end-scan, record it by type, and return as soon as both
parameter sets are present; in every case advance the index by one. -/
def tryLoop : List Nat → H264Parameters → H264Parameters
  | a :: b :: c :: d :: e :: rest, p =>
      if a = 0 ∧ b = 0 ∧ c = 0 ∧ d = 1 then
        let nal := e :: (spanT4 rest).1
        let p' := tryUpdate (e % 32) nal p
        if p'.SPS.isSome ∧ p'.PPS.isSome then p'
        else tryLoop (b :: c :: d :: e :: rest) p'
      else if a = 0 ∧ b = 0 ∧ c = 1 then
        let nal := d :: (spanT3 (e :: rest)).1
        let p' := tryUpdate (d % 32) nal p
        if p'.SPS.isSome ∧ p'.PPS.isSome then p'
        else tryLoop (b :: c :: d :: e :: rest) p'
      else tryLoop (b :: c :: d :: e :: rest) p
  | _, p => p

/-- `tryParseH264Parameters`: run the loop on the zero-value struct;
return Go nil (`none`) when neither parameter set was found. -/
def tryParseH264Parameters (data : List Nat) : Option H264Parameters :=
  let p := tryLoop data noParams
  if p.SPS = none ∧ p.PPS = none then none else some p

/-- NAL-end scan of `parseH264Parameters` (`for end < len(data)`, break
on a 3-byte start code followed by ≥ 1 byte, or a 4-byte start code
followed by ≥ 1 byte). -/
def spanP : List Nat → List Nat × List Nat
  | 0 :: 0 :: 1 :: x :: xs => ([], 0 :: 0 :: 1 :: x :: xs)
  | 0 :: 0 :: 0 :: 1 :: y :: ys => ([], 0 :: 0 :: 0 :: 1 :: y :: ys)
  | a :: rest =>
      let r := spanP rest
      (a :: r.1, r.2)
  | [] => ([], [])

/-- The `switch nalType` body of `parseH264Parameters`: unconditional
assignment (the last occurrence of each type wins; no length filter). -/
def pUpdate (ty : Nat) (nal : List Nat) (p : H264Parameters) : H264Parameters :=
  if ty = 7 then { p with SPS := some nal }
  else if ty = 8 then { p with PPS := some nal }
  else p

theorem spanP_snd_le (s : List Nat) : (spanP s).2.length ≤ s.length := by
  induction s using spanP.induct with
  | case1 x xs => rw [spanP]
  | case2 y ys => rw [spanP]
  | case3 a rest h1 h2 ih =>
      rw [spanP.eq_def]
      split
      · rename_i x xs heq
        obtain ⟨ha, hrest⟩ := List.cons.inj heq
        exact (h1 x xs ha hrest).elim
      · rename_i y ys heq
        obtain ⟨ha, hrest⟩ := List.cons.inj heq
        exact (h2 y ys ha hrest).elim
      · rename_i a' rest' heq
        obtain ⟨ha, hrest⟩ := List.cons.inj heq
        subst hrest
        simp only [List.length_cons]
        omega
      · rename_i heq
        simp at heq
  | case4 => rw [spanP]

/-- Main loop of `parseH264Parameters`: find a start code (4-byte tested
first), take the NAL up to the break position of the end-scan, record it
by type, and continue scanning at the break position (`i = end`). -/
def pLoop : List Nat → H264Parameters → H264Parameters
  | 0 :: 0 :: 0 :: 1 :: b :: rest, p =>
      let r := spanP rest
      pLoop r.2 (pUpdate (b % 32) (b :: r.1) p)
  | 0 :: 0 :: 1 :: b :: rest, p =>
      let r := spanP rest
      pLoop r.2 (pUpdate (b % 32) (b :: r.1) p)
  | _ :: rest, p => pLoop rest p
  | [], p => p
termination_by s _ => s.length
decreasing_by
  · have := spanP_snd_le rest
    simp only [List.length_cons]
    omega
  · have := spanP_snd_le rest
    simp only [List.length_cons]
    omega
  · simp

/-- `parseH264Parameters`: run the loop; the Go function returns an
error (`none`) when either parameter set is missing/empty, else both. -/
def parseH264Parameters (data : List Nat) : Option (List Nat × List Nat) :=
  let p := pLoop data noParams
  match p.SPS, p.PPS with
  | some sps, some pps => some (sps, pps)
  | _, _ => none

/-- The `switch nalType` body of the `ExtractH264ParametersFromStream`
NAL loop: first occurrence of each type wins (no length filter). -/
def streamUpdate (nalu : List Nat) (p : H264Parameters) : H264Parameters :=
  if nalu.headD 0 % 32 = 7 then
    (if p.SPS = none then { p with SPS := some nalu } else p)
  else if nalu.headD 0 % 32 = 8 then
    (if p.PPS = none then { p with PPS := some nalu } else p)
  else p

/-- The per-NAL-unit loop of `ExtractH264ParametersFromStream`, run on
the NAL units delivered by the external Annex-B unmarshaller: first
occurrence of each type wins; return as soon as both are present. -/
def streamScanNalus : List (List Nat) → H264Parameters → H264Parameters
  | [], p => p
  | nalu :: rest, p =>
      let p' := streamUpdate nalu p
      if p'.SPS.isSome ∧ p'.PPS.isSome then p' else streamScanNalus rest p'

/-! ## Structured Annex-B buffers

To quantify over "valid Annex-B buffers" the theorems use a chunk
representation: a buffer is a concatenation of (3-byte start code ++ NAL
unit) blocks.  A well-formed NAL payload is nonempty, contains no 3-byte
start-code pattern (guaranteed by H.264 emulation prevention) and does
not end in a zero byte (guaranteed by the RBSP trailing bits). -/

/-- One start-code-delimited block. -/
structure Chunk where
  nal : List Nat
  deriving DecidableEq, Repr

/-- 3-byte start code. -/
def sc3 : List Nat := [0, 0, 1]

/-- Bytes of one block. -/
def Chunk.bytes (c : Chunk) : List Nat := sc3 ++ c.nal

/-- A whole Annex-B buffer with 3-byte start codes. -/
def encode3 (cs : List Chunk) : List Nat := (cs.map Chunk.bytes).flatten

/-- NAL type of a chunk (low 5 bits of its header byte). -/
def chunkTy (c : Chunk) : Nat := c.nal.headD 0 % 32

/-- Whether a 3-byte start code occurs anywhere in the list. -/
def hasSC3 : List Nat → Bool
  | a :: b :: c :: rest => (a == 0 && b == 0 && c == 1) || hasSC3 (b :: c :: rest)
  | _ => false

/-- Well-formed NAL payload. -/
def wfNal (nal : List Nat) : Prop :=
  nal ≠ [] ∧ hasSC3 nal = false ∧ nal.getLast? ≠ some 0

instance wfNal.instDecidable (nal : List Nat) : Decidable (wfNal nal) :=
  decidable_of_iff (nal ≠ [] ∧ hasSC3 nal = false ∧ nal.getLast? ≠ some 0) Iff.rfl

/-- Chunk-level reference of `tryLoop` over an encoded buffer: process
blocks in order with the first-wins update, stopping as soon as both
parameter sets are present. -/
def chunkScan : List Chunk → H264Parameters → H264Parameters
  | [], p => p
  | c :: rest, p =>
      let p' := tryUpdate (chunkTy c) c.nal p
      if p'.SPS.isSome ∧ p'.PPS.isSome then p' else chunkScan rest p'

/-- Chunk-level reference of `pLoop` over an encoded buffer: process
every block in order with the overwriting update. -/
def pChunkScan : List Chunk → H264Parameters → H264Parameters
  | [], p => p
  | c :: rest, p => pChunkScan rest (pUpdate (chunkTy c) c.nal p)

/-! ## Claim theorems: handler and dispatch -/

/-- Claim C1, counterexample.  The claim states that an ANNOUNCE whose
description contains no H.264 media is answered `BadRequest` *and* leaves
the pre-existing stream/publisher state untouched.  With an active stream
and a recorded publisher, the handler closes the pre-existing stream
(`closed` flips to `true`) and closes the publisher session twice before
the validation check, so the resulting state differs from the initial
one even though `BadRequest` is returned. -/
theorem announce_reject_untouched_counterexample :
    onAnnounce { stream := some { desc := { medias := [] }, closed := false },
                 publisher := some 3, closedSessions := [] } 5
        { medias := [{ type := .audio, formats := [.generic "opus"] }] } =
      some ({ stream := some { desc := { medias := [] }, closed := true },
              publisher := some 3, closedSessions := [3, 3] },
            .badRequest, true) ∧
    ({ stream := some { desc := { medias := [] }, closed := true },
       publisher := some 3, closedSessions := [3, 3] } : HandlerState) ≠
      { stream := some { desc := { medias := [] }, closed := false },
        publisher := some 3, closedSessions := [] } :=
  ⟨rfl, by decide⟩

/-- Claim C1, amended.  An ANNOUNCE with no H.264 media is answered
`BadRequest` with an error when the handler has no stream and no
publisher (state unchanged), and when it has both (but then the
pre-existing stream and its publisher session are closed *before* the
validation check, the field values themselves surviving); when a stream
is active with no recorded publisher — the file-backed case — the handler
panics on a nil-publisher dereference instead of answering. -/
theorem announce_no_h264_amended (h : HandlerState) (sess : Nat) (d : SessionDescription)
    (hno : findH264Media d = none) :
    (h.stream = none → h.publisher = none →
        onAnnounce h sess d = some (h, .badRequest, true)) ∧
    (∀ s p, h.stream = some s → h.publisher = some p →
        onAnnounce h sess d =
          some ({ stream := some { s with closed := true },
                  publisher := some p,
                  closedSessions := p :: p :: h.closedSessions },
                .badRequest, true)) ∧
    (∀ s, h.stream = some s → h.publisher = none → onAnnounce h sess d = none) := by
  obtain ⟨st, pu, cl⟩ := h
  refine ⟨?_, ?_, ?_⟩
  · intro hs hp
    simp only at hs hp
    subst hs; subst hp
    simp [onAnnounce, hno]
  · intro s p hs hp
    simp only at hs hp
    subst hs; subst hp
    simp [onAnnounce, hno]
  · intro s hs hp
    simp only at hs hp
    subst hs; subst hp
    simp [onAnnounce]

/-- Claim C1, witness for the amended theorem at a concrete input. -/
theorem announce_no_h264_amended_witness :
    onAnnounce { stream := some { desc := { medias := [] }, closed := false },
                 publisher := some 7, closedSessions := [] } 9 { medias := [] } =
      some ({ stream := some { desc := { medias := [] }, closed := true },
              publisher := some 7, closedSessions := [7, 7] },
            .badRequest, true) :=
  (announce_no_h264_amended
      { stream := some { desc := { medias := [] }, closed := false },
        publisher := some 7, closedSessions := [] } 9 { medias := [] }
      (by decide)).2.1 _ 7 rfl rfl

/-- Claim C6 (code bug).  While the file-backed stream installed by
`StartServer` is active, `h.publisher` is nil; an ANNOUNCE that does
carry H.264 video reaches `h.publisher.Close()` inside the
`if h.stream != nil` block and panics on the nil dereference instead of
closing the old stream and installing the new publisher. -/
theorem announce_preempt_filebacked_panics :
    onAnnounce (startServerHandler none) 5
        { medias := [{ type := .video,
                       formats := [.h264 { payloadTyp := 96, packetizationMode := 1,
                                           sps := [], pps := [] }] }] } = none := rfl

/-- Claim C7.  A DESCRIBE handled before any stream is installed is
answered "not found" with no stream; after `StartServer` installs the
file-backed stream (for either extraction outcome), DESCRIBE is answered
OK with a description whose media list is exactly one video entry. -/
theorem describe_before_and_after :
    onDescribe initialHandler = (.notFound, none) ∧
    ∀ h264Params,
      onDescribe (startServerHandler h264Params) =
          (.ok, some { desc := startServerDesc h264Params, closed := false }) ∧
        (startServerDesc h264Params).medias.map Media.type = [.video] :=
  ⟨rfl, fun _ => ⟨rfl, rfl⟩⟩

theorem hasSuffix_getLast? {p sfx : List Char} (h : hasSuffix p sfx = true)
    (hne : sfx ≠ []) : p.getLast? = sfx.getLast? := by
  unfold hasSuffix at h
  rw [List.isSuffixOf_iff_suffix] at h
  obtain ⟨q, rfl⟩ := h
  exact List.getLast?_append_of_ne_nil q hne

/-- Claim C9.  `NewFileStreamer` dispatches purely on the path suffix:
".ts" selects the MPEG-TS reader, ".mp4" the transcoding container
reader (no path can end in both), anything else the raw MJPEG pipe
reader; and a transcode failure makes `mp4FileStreamer.Initialize`
return the wrapped transcode error. -/
theorem streamer_dispatch (p : List Char) :
    (hasSuffix p tsExt = true → newFileStreamer true true p = .built .mjpegts) ∧
    (hasSuffix p mp4Ext = true → newFileStreamer true true p = .built .mp4) ∧
    (hasSuffix p tsExt = false → hasSuffix p mp4Ext = false →
        newFileStreamer true true p = .built .mjpeg) ∧
    (∀ msg openConverted, mp4Initialize true (.error msg) openConverted =
        .errTranscode msg) := by
  refine ⟨fun hts => by simp [newFileStreamer, hts], ?_, ?_, fun _ _ => rfl⟩
  · intro hmp4
    have hts : hasSuffix p tsExt = false := by
      by_contra hts
      rw [Bool.not_eq_false] at hts
      have h1 := hasSuffix_getLast? hts (by decide)
      have h2 := hasSuffix_getLast? hmp4 (by decide)
      rw [h1] at h2
      simp [tsExt, mp4Ext] at h2
    simp [newFileStreamer, hts, hmp4]
  · intro hts hmp4
    simp [newFileStreamer, hts, hmp4]

/-- Claim C9, witness at concrete paths and a concrete transcode error. -/
theorem streamer_dispatch_witness :
    newFileStreamer true true ['a', '.', 't', 's'] = .built .mjpegts ∧
    newFileStreamer true true ['a', '.', 'm', 'p', '4'] = .built .mp4 ∧
    newFileStreamer true true ['a', '.', 'h', '2', '6', '4'] = .built .mjpeg ∧
    mp4Initialize true (.error "ffmpeg error") (.ok ()) = .errTranscode "ffmpeg error" :=
  ⟨(streamer_dispatch _).1 (by decide),
   (streamer_dispatch _).2.1 (by decide),
   (streamer_dispatch _).2.2.1 (by decide) (by decide),
   (streamer_dispatch ['a', '.', 'm', 'p', '4']).2.2.2 "ffmpeg error" (.ok ())⟩

/-- Claim C10.  `NewFileStreamer` reports no failure through its return
value: a missing file or a failed open panics the process (for every
dispatch branch), and every outcome is either a panic or a built
(non-nil) streamer — there is no error-value case at all. -/
theorem construction_failure_not_a_value :
    (∀ openOk p, newFileStreamer false openOk p = .panicked) ∧
    (∀ statExists p, newFileStreamer statExists false p = .panicked) ∧
    (∀ statExists openOk p, newFileStreamer statExists openOk p = .panicked ∨
        ∃ k, newFileStreamer statExists openOk p = .built k) := by
  refine ⟨fun _ _ => rfl, ?_, ?_⟩
  · intro statExists p
    cases statExists
    · rfl
    · simp [newFileStreamer]
  · intro statExists openOk p
    cases statExists
    · exact Or.inl rfl
    · cases openOk
      · left
        simp [newFileStreamer]
      · right
        have hform : newFileStreamer true true p =
            (if hasSuffix p tsExt = true then .built .mjpegts
             else if hasSuffix p mp4Ext = true then .built .mp4
             else .built .mjpeg) := by
          simp [newFileStreamer]
        rw [hform]
        split
        · exact ⟨_, rfl⟩
        · split
          · exact ⟨_, rfl⟩
          · exact ⟨_, rfl⟩

/-! ## Claim theorems: MJPEG buffer bound -/

theorem processFrames_eq_none (b : List Nat) (hs : findJPEGStart b = none) :
    processFrames b =
      (if b.length > 10 then b.drop (b.length - 10) else b, []) := by
  rw [processFrames.eq_def]
  split
  · rfl
  · rename_i s hs'
    rw [hs] at hs'
    cases hs'

theorem processFrames_eq_incomplete (b : List Nat) (s : Nat)
    (hs : findJPEGStart b = some s)
    (he : findPair 255 217 ((b.drop s).drop 2) = none) :
    processFrames b = (b.drop s, []) := by
  rw [processFrames.eq_def]
  split
  · rename_i hs'
    rw [hs] at hs'
    cases hs'
  · rename_i s' hs'
    rw [hs] at hs'
    injection hs' with h
    subst h
    split
    · rfl
    · rename_i idx he'
      rw [he] at he'
      cases he'

theorem processFrames_eq_frame (b : List Nat) (s idx : Nat)
    (hs : findJPEGStart b = some s)
    (he : findPair 255 217 ((b.drop s).drop 2) = some idx) :
    processFrames b =
      ((processFrames ((b.drop s).drop (idx + 4))).1,
        if ((b.drop s).take (idx + 4)).length < 10 then
          (processFrames ((b.drop s).drop (idx + 4))).2
        else
          (b.drop s).take (idx + 4) ::
            (processFrames ((b.drop s).drop (idx + 4))).2) := by
  rw [processFrames.eq_def]
  split
  · rename_i hs'
    rw [hs] at hs'
    cases hs'
  · rename_i s' hs'
    rw [hs] at hs'
    injection hs' with h
    subst h
    split
    · rename_i he'
      rw [he] at he'
      cases he'
    · rename_i idx' he'
      rw [he] at he'
      injection he' with h2
      subst h2
      rfl

theorem processFrames_fst_le (buffer : List Nat) :
    (processFrames buffer).1.length ≤ buffer.length := by
  match hs : findJPEGStart buffer with
  | none =>
      rw [processFrames_eq_none buffer hs]
      split
      · simp only [List.length_drop]
        omega
      · exact le_rfl
  | some s =>
      match he : findPair 255 217 ((buffer.drop s).drop 2) with
      | none =>
          rw [processFrames_eq_incomplete buffer s hs he]
          simp only [List.length_drop]
          omega
      | some idx =>
          rw [processFrames_eq_frame buffer s idx hs he]
          have ih := processFrames_fst_le ((buffer.drop s).drop (idx + 4))
          simp only [List.length_drop] at ih ⊢
          omega
termination_by buffer.length
decreasing_by
  have hb : s + 2 ≤ buffer.length := findPair_bound 255 216 buffer s hs
  simp only [List.length_drop]
  omega

theorem mjpegIter_le (buffer chunk : List Nat)
    (hb : buffer.length ≤ MJPEG_CAP) (hc : chunk.length ≤ 4096) :
    (mjpegIter buffer chunk).length ≤ MJPEG_CAP := by
  unfold mjpegIter capBuffer
  have h1 : (processFrames (buffer ++ chunk)).1.length ≤ buffer.length + chunk.length := by
    have h := processFrames_fst_le (buffer ++ chunk)
    simpa using h
  split
  · simp only [List.length_drop]
    unfold MJPEG_CAP at *
    omega
  · unfold MJPEG_CAP at *
    omega

theorem mjpegRun_le_aux (chunks : List (List Nat)) :
    ∀ buf : List Nat, buf.length ≤ MJPEG_CAP →
      (∀ c ∈ chunks, c.length ≤ 4096) →
      (chunks.foldl mjpegIter buf).length ≤ MJPEG_CAP := by
  induction chunks with
  | nil =>
      intro buf hb _
      simpa using hb
  | cons c rest ih =>
      intro buf hb hc
      simp only [List.foldl_cons]
      exact ih _ (mjpegIter_le buf c hb (hc c (by simp)))
        (fun x hx => hc x (by simp [hx]))

/-- Claim C8.  Feeding the MJPEG pipe reader any sequence of reads of at
most 4096 bytes (the size of its read buffer) keeps the accumulation
buffer at or below the 2 MiB cap at every outer-loop boundary; when no
start marker is present the processing loop trims the buffer to at most
its last 10 bytes; and whenever the buffer exceeds 2 MiB after
processing, its oldest half is discarded. -/
theorem mjpeg_buffer_bound :
    (∀ chunks : List (List Nat), (∀ c ∈ chunks, c.length ≤ 4096) →
        (mjpegRun chunks).length ≤ MJPEG_CAP) ∧
    (∀ b : List Nat, findJPEGStart b = none →
        (processFrames b).1 = b.drop (b.length - 10) ∧
          (processFrames b).1.length ≤ 10) ∧
    (∀ b : List Nat, b.length > MJPEG_CAP →
        capBuffer b = b.drop (b.length / 2)) := by
  refine ⟨?_, ?_, ?_⟩
  · intro chunks hc
    exact mjpegRun_le_aux chunks [] (by simp [MJPEG_CAP]) hc
  · intro b hs
    rw [processFrames_eq_none b hs]
    constructor
    · show (if b.length > 10 then b.drop (b.length - 10) else b) = _
      split
      · rfl
      · rename_i hlen
        have h0 : b.length - 10 = 0 := by omega
        rw [h0, List.drop_zero]
    · show (if b.length > 10 then b.drop (b.length - 10) else b).length ≤ 10
      split
      · simp only [List.length_drop]
        omega
      · rename_i h
        omega
  · intro b hb
    unfold capBuffer
    rw [if_pos hb]

/-- Claim C8, witness: a concrete run, a concrete marker-free buffer,
and a concrete over-cap buffer. -/
theorem mjpeg_buffer_bound_witness :
    (mjpegRun [[255, 216, 1]]).length ≤ MJPEG_CAP ∧
    (processFrames [1, 2, 3]).1 = [1, 2, 3].drop ([1, 2, 3].length - 10) ∧
    capBuffer (List.replicate (MJPEG_CAP + 1) 0) =
      (List.replicate (MJPEG_CAP + 1) 0).drop
        ((List.replicate (MJPEG_CAP + 1) 0).length / 2) :=
  ⟨mjpeg_buffer_bound.1 [[255, 216, 1]] (by decide),
   (mjpeg_buffer_bound.2.1 [1, 2, 3] (by decide)).1,
   mjpeg_buffer_bound.2.2 (List.replicate (MJPEG_CAP + 1) 0)
     (by rw [List.length_replicate]; exact Nat.lt_succ_self _)⟩

/-! ## Claim theorems: pacing loop and rewind continuity -/

/-- RTP timestamp assigned to one access unit:
`uint32(int64(randomStart) + pts)`. -/
def tsOf (randomStart : Nat) (x : AccessUnit × Int) : Nat :=
  u32 ((randomStart : Int) + x.1.pts)

/-- The blocking time of the pacing step for an access unit arriving at
wall-clock `x.2`, once the pass epoch `(f, t)` (first emitted DTS, first
emission wall-clock) is fixed: `max 0 ((dts − f)·10⁹ tdiv 90000 − (now − t))`
nanoseconds. -/
def sleepOf (f t : Int) (x : AccessUnit × Int) : Int :=
  max 0 (Int.tdiv ((x.1.dts - f) * 1000000000) 90000 - (x.2 - t))

theorem pos_ite_eq_max (d : Int) : (if d > 0 then d else 0) = max 0 d := by
  rcases le_or_lt d 0 with h | h
  · rw [if_neg (not_lt.mpr h), max_eq_left h]
  · rw [if_pos h, max_eq_right h.le]

theorem foldl_auStep_started (b : Nat) (f t : Int) :
    ∀ (xs : List (AccessUnit × Int)) (st : PassState),
      st.foundIDR = true → st.firstDTS = some f → st.firstTime = t →
      xs.foldl (fun st x => (auStep b st x.1 x.2).1) st =
        { foundIDR := true, firstDTS := some f, firstTime := t,
          lastRTPTime := (xs.map (tsOf b)).getLastD st.lastRTPTime,
          emitted := st.emitted ++ xs.map (tsOf b),
          slept := st.slept ++ xs.map (sleepOf f t) } := by
  intro xs
  induction xs with
  | nil =>
      intro st h1 h2 h3
      obtain ⟨fi, fd, ft, lr, em, sl⟩ := st
      simp only at h1 h2 h3
      subst h1; subst h2; subst h3
      simp
  | cons x rest ih =>
      intro st h1 h2 h3
      simp only [List.foldl_cons, List.map_cons]
      have hstep : (auStep b st x.1 x.2).1 =
          { foundIDR := true, firstDTS := some f, firstTime := t,
            lastRTPTime := tsOf b x,
            emitted := st.emitted ++ [tsOf b x],
            slept := st.slept ++ [sleepOf f t x] } := by
        obtain ⟨fi, fd, ft, lr, em, sl⟩ := st
        simp only at h1 h2 h3
        subst h1; subst h2; subst h3
        simp [auStep, tsOf, sleepOf, ← pos_ite_eq_max]
      rw [hstep, ih _ rfl rfl rfl]
      simp only [List.getLastD_cons, List.append_assoc, List.singleton_append]

theorem foldl_auStep_skip (b : Nat) :
    ∀ xs : List (AccessUnit × Int),
      (∀ x ∈ xs, auIsIDR x.1 = false) →
      xs.foldl (fun st x => (auStep b st x.1 x.2).1) initPassState = initPassState := by
  intro xs
  induction xs with
  | nil => intro _; rfl
  | cons x rest ih =>
      intro h
      simp only [List.foldl_cons]
      have hx : (auStep b initPassState x.1 x.2).1 = initPassState := by
        simp [auStep, initPassState, h x (by simp)]
      rw [hx]
      exact ih (fun y hy => h y (by simp [hy]))

theorem dropWhile_head_not {α : Type} (p : α → Bool) :
    ∀ (l : List α) (a : α) (r : List α), l.dropWhile p = a :: r → p a = false := by
  intro l
  induction l with
  | nil => intro a r h; simp [List.dropWhile] at h
  | cons x xs ih =>
      intro a r h
      rw [List.dropWhile_cons] at h
      split at h
      · exact ih a r h
      · rename_i hx
        obtain ⟨h1, h2⟩ := List.cons.inj h
        subst h1
        simpa using hx

/-- Closed form of one pass of the pacing loop, when the gated input is
nonempty (first IDR access unit `au0`, remainder `rest`): every pre-IDR
unit is skipped, `au0` fixes the epoch and is emitted with no sleep, and
each later unit is emitted after `sleepOf` blocking, with timestamps
`tsOf`. -/
theorem runPass_characterization (b : Nat) (aus : List (AccessUnit × Int))
    (au0 : AccessUnit × Int) (rest : List (AccessUnit × Int))
    (hsplit : aus.dropWhile (fun x => !auIsIDR x.1) = au0 :: rest) :
    runPass b aus =
      { foundIDR := true, firstDTS := some au0.1.dts, firstTime := au0.2,
        lastRTPTime := ((au0 :: rest).map (tsOf b)).getLastD 0,
        emitted := (au0 :: rest).map (tsOf b),
        slept := 0 :: rest.map (sleepOf au0.1.dts au0.2) } := by
  unfold runPass
  have hsp : aus = aus.takeWhile (fun x => !auIsIDR x.1) ++ (au0 :: rest) := by
    rw [← hsplit, List.takeWhile_append_dropWhile]
  rw [hsp, List.foldl_append, foldl_auStep_skip b _ ?hskip]
  case hskip =>
    intro x hx
    have := List.mem_takeWhile_imp hx
    simpa using this
  have hidr : auIsIDR au0.1 = true := by
    have := dropWhile_head_not _ aus au0 rest hsplit
    simpa using this
  simp only [List.foldl_cons]
  have hfirst : (auStep b initPassState au0.1 au0.2).1 =
      { foundIDR := true, firstDTS := some au0.1.dts, firstTime := au0.2,
        lastRTPTime := tsOf b au0, emitted := [tsOf b au0], slept := [0] } := by
    simp [auStep, initPassState, hidr, tsOf]
  rw [hfirst, foldl_auStep_started b au0.1.dts au0.2 rest _ rfl rfl rfl]
  simp only [List.map_cons, List.getLastD_cons, List.singleton_append]

/-- Claim C2, counterexample.  File with two access units 3000 ticks
apart (one frame interval) whose first unit is not an IDR: the second
pass drops the leading non-IDR unit again, so the client-visible
timestamp jump across the rewind is 3001 ticks — strictly more than one
frame interval — refuting the claimed discontinuity bound, even though
the timestamps do keep increasing. -/
theorem rewind_timestamp_counterexample :
    runPasses 100 [({ pts := 0, dts := 0, nals := [[65]] }, 0),
                   ({ pts := 3000, dts := 3000, nals := [[101]] }, 0)] 2 =
      [[3100], [6101]] ∧
    6101 - 3100 > 3000 :=
  ⟨by decide, by decide⟩

/-- Claim C2, amended.  Across an end-of-file rewind, the next pass's
timestamp base equals the last emitted RTP timestamp plus one (reduced
mod `2^32`); the first timestamp of the next pass is the new base plus
the decoded PTS `p₀` of the next pass's first emitted access unit; hence
the client-visible sequence is strictly increasing across the rewind
with a discontinuity of `1 + p₀` ticks, which is at most one frame
interval `F` exactly when `p₀ < F` (and no 32-bit wraparound occurs). -/
theorem rewind_timestamp_amended (b : Nat) (aus : List (AccessUnit × Int))
    (au0 : AccessUnit × Int) (rest : List (AccessUnit × Int))
    (hsplit : aus.dropWhile (fun x => !auIsIDR x.1) = au0 :: rest)
    (F : Int) (hp0 : 0 ≤ au0.1.pts) :
    ∀ he : (runPass b aus).emitted ≠ [],
      nextRandomStart b aus = ((runPass b aus).emitted.getLast he + 1) % 2 ^ 32 ∧
      (runPass (nextRandomStart b aus) aus).emitted.head? =
        some (u32 ((nextRandomStart b aus : Int) + au0.1.pts)) ∧
      (au0.1.pts < F →
        ((runPass b aus).emitted.getLast he : Int) + 1 + au0.1.pts < 2 ^ 32 →
        ((runPass b aus).emitted.getLast he <
            (runPass (nextRandomStart b aus) aus).emitted.headD 0 ∧
          ((runPass (nextRandomStart b aus) aus).emitted.headD 0 : Int) -
            (runPass b aus).emitted.getLast he ≤ F)) := by
  have hchar := runPass_characterization b aus au0 rest hsplit
  intro he
  have hlast0 : (runPass b aus).lastRTPTime = (runPass b aus).emitted.getLastD 0 := by
    rw [hchar]
  have hlast : (runPass b aus).emitted.getLastD 0 = (runPass b aus).emitted.getLast he := by
    rw [List.getLastD_eq_getLast?, List.getLast?_eq_getLast _ he, Option.getD_some]
  have hbase : nextRandomStart b aus =
      ((runPass b aus).emitted.getLast he + 1) % 2 ^ 32 := by
    unfold nextRandomStart
    rw [hlast0, hlast]
  refine ⟨hbase, ?_, ?_⟩
  · have hchar2 := runPass_characterization (nextRandomStart b aus) aus au0 rest hsplit
    rw [hchar2]
    simp [tsOf]
  · intro hF hnw
    set L : Nat := (runPass b aus).emitted.getLast he with hL
    have hL32 : (L : Int) + 1 ≤ 2 ^ 32 := by omega
    have hbase' : nextRandomStart b aus = L + 1 := by
      rw [hbase, Nat.mod_eq_of_lt (by omega)]
    have hchar2 := runPass_characterization (nextRandomStart b aus) aus au0 rest hsplit
    have hhead : (runPass (nextRandomStart b aus) aus).emitted.headD 0 =
        u32 ((nextRandomStart b aus : Int) + au0.1.pts) := by
      rw [hchar2]
      simp [tsOf]
    rw [hhead, hbase']
    unfold u32
    rw [Int.emod_eq_of_lt (by omega) (by push_cast; omega)]
    constructor
    · omega
    · push_cast
      omega

/-- Claim C2, witness for the amended theorem: a file whose single
access unit is an IDR at PTS 3000. -/
theorem rewind_timestamp_amended_witness :
    nextRandomStart 100 [({ pts := 3000, dts := 3000, nals := [[101]] }, 0)] =
      ((runPass 100 [({ pts := 3000, dts := 3000, nals := [[101]] }, 0)]).emitted.getLast
          (by decide) + 1) % 2 ^ 32 :=
  (rewind_timestamp_amended 100
      [({ pts := 3000, dts := 3000, nals := [[101]] }, 0)]
      ({ pts := 3000, dts := 3000, nals := [[101]] }, 0) []
      (by decide) 4000 (by decide) (by decide)).1

/-- Claim C5.  In one pass of the pacing loop, the first access unit
that reaches the pacing code is emitted with zero sleep and fixes the
pass epoch (its DTS and its wall-clock arrival); every later access
unit blocks for exactly `max 0 ((dts − firstDTS)·10⁹ tdiv 90000 − (now −
firstTime))` nanoseconds before emission; and no access unit delivered
after the stream has started is dropped (one emission per gated unit). -/
theorem pacing_sleep_exact (b : Nat) (aus : List (AccessUnit × Int))
    (au0 : AccessUnit × Int) (rest : List (AccessUnit × Int))
    (hsplit : aus.dropWhile (fun x => !auIsIDR x.1) = au0 :: rest) :
    (runPass b aus).slept = 0 :: rest.map (sleepOf au0.1.dts au0.2) ∧
    (runPass b aus).firstDTS = some au0.1.dts ∧
    (runPass b aus).firstTime = au0.2 ∧
    (runPass b aus).emitted.length = (au0 :: rest).length := by
  have h := runPass_characterization b aus au0 rest hsplit
  rw [h]
  exact ⟨rfl, rfl, rfl, by simp⟩

/-- Claim C5, witness: an IDR-led two-unit pass with concrete arrival
times. -/
theorem pacing_sleep_exact_witness :
    (runPass 7 [({ pts := 0, dts := 0, nals := [[101]] }, 0),
                ({ pts := 3000, dts := 3000, nals := [[65]] }, 50000000)]).slept =
      0 :: [({ pts := 3000, dts := 3000, nals := [[65]] }, (50000000 : Int))].map
        (sleepOf 0 0) :=
  (pacing_sleep_exact 7
      [({ pts := 0, dts := 0, nals := [[101]] }, 0),
       ({ pts := 3000, dts := 3000, nals := [[65]] }, 50000000)]
      ({ pts := 0, dts := 0, nals := [[101]] }, 0)
      [({ pts := 3000, dts := 3000, nals := [[65]] }, 50000000)]
      (by decide)).1

/-! ## Scanner lemmas: start-code-free byte runs -/

theorem hasSC3_prefix_001 (xs : List Nat) : hasSC3 (0 :: 0 :: 1 :: xs) = true := by
  rw [hasSC3]
  simp

theorem hasSC3_tail : ∀ {a : Nat} {t : List Nat},
    hasSC3 (a :: t) = false → hasSC3 t = false := by
  intro a t h
  match t with
  | [] => rfl
  | [x] => rfl
  | x :: y :: t' =>
      rw [hasSC3] at h
      exact (Bool.or_eq_false_iff.mp h).2

theorem not_sc3_of_hasSC3_false {x y z : Nat} {t : List Nat}
    (h : hasSC3 (x :: y :: z :: t) = false) : ¬(x = 0 ∧ y = 0 ∧ z = 1) := by
  rintro ⟨rfl, rfl, rfl⟩
  rw [hasSC3_prefix_001] at h
  cases h

theorem not_sc4_of_hasSC3_false {a b c d : Nat} {t : List Nat}
    (h : hasSC3 (a :: b :: c :: d :: t) = false) : ¬(a = 0 ∧ b = 0 ∧ c = 0 ∧ d = 1) := by
  rintro ⟨rfl, rfl, rfl, rfl⟩
  have h2 := hasSC3_tail h
  rw [hasSC3_prefix_001] at h2
  cases h2

theorem hasSC3_cons01 : ∀ (l : List Nat), hasSC3 (0 :: 1 :: l) = hasSC3 l := by
  intro l
  match l with
  | [] => rfl
  | [x] => rfl
  | x :: y :: l' =>
      rw [hasSC3, hasSC3]
      simp [hasSC3]

/-- A start-code-free byte run followed by a 3-byte start code is consumed
exactly by the 3-byte-branch end-scan: the scan stops at the start code. -/
theorem spanT3_exact : ∀ (t r : List Nat), hasSC3 t = false →
    spanT3 (t ++ 0 :: 0 :: 1 :: r) = (t, 0 :: 0 :: 1 :: r)
  | [], r, _ => by
      rw [List.nil_append, spanT3]
      simp
  | [x], r, h => by
      simp only [List.cons_append, List.nil_append]
      rw [spanT3, if_neg (by simp), spanT3, if_pos ⟨rfl, rfl, rfl⟩]
  | x :: y :: t'', r, h => by
      have h' : hasSC3 (y :: t'') = false := hasSC3_tail h
      have ih := spanT3_exact (y :: t'') r h'
      match t'' with
      | [] =>
          simp only [List.cons_append, List.nil_append] at ih ⊢
          rw [spanT3, if_neg (by simp), ih]
      | z :: t''' =>
          have hg : ¬(x = 0 ∧ y = 0 ∧ z = 1) := not_sc3_of_hasSC3_false h
          simp only [List.cons_append] at ih ⊢
          rw [spanT3, if_neg hg, ih]

theorem tryLoop_noCode : ∀ (t : List Nat) (p : H264Parameters),
    hasSC3 t = false → tryLoop t p = p
  | [], _, _ => rfl
  | [_], _, _ => rfl
  | [_, _], _, _ => rfl
  | [_, _, _], _, _ => rfl
  | [_, _, _, _], _, _ => rfl
  | a :: b :: c :: d :: e :: rest, p, h => by
      rw [tryLoop]
      rw [if_neg (not_sc4_of_hasSC3_false h), if_neg (not_sc3_of_hasSC3_false h)]
      exact tryLoop_noCode (b :: c :: d :: e :: rest) p (hasSC3_tail h)

/-- Scanning can be resumed past a start-code-free run that does not end
in a zero byte: the `tryParseH264Parameters` loop finds no match at any
offset inside the run or straddling its border with the following
buffer (which is empty or begins with a 3-byte start code). -/
theorem tryLoop_skip : ∀ (t E : List Nat) (p : H264Parameters),
    hasSC3 t = false → t.getLast? ≠ some 0 →
    (E = [] ∨ ∃ E', E = 0 :: 0 :: 1 :: E') →
    tryLoop (t ++ E) p = tryLoop E p
  | [], E, p, _, _, _ => by rw [List.nil_append]
  | [a], E, p, h, hl, hE => by
      rcases hE with rfl | ⟨E', rfl⟩
      · rfl
      · match E' with
        | [] => rfl
        | e :: E'' =>
            have ha : a ≠ 0 := by
              intro h0
              exact hl (by simp [h0])
            simp only [List.cons_append, List.nil_append]
            rw [tryLoop, if_neg (by simp [ha]), if_neg (by simp)]
  | [a, b], E, p, h, hl, hE => by
      rcases hE with rfl | ⟨E', rfl⟩
      · rfl
      · have hl' : [b].getLast? ≠ some 0 := by
          rw [List.getLast?_cons_cons] at hl
          exact hl
        simp only [List.cons_append, List.nil_append]
        rw [tryLoop, if_neg (by simp), if_neg (by simp)]
        exact tryLoop_skip [b] (0 :: 0 :: 1 :: E') p rfl hl' (Or.inr ⟨E', rfl⟩)
  | a :: b :: c :: t'', E, p, h, hl, hE => by
      rcases hE with rfl | ⟨E', rfl⟩
      · rw [List.append_nil]
        exact tryLoop_noCode _ p h
      · have hl' : (b :: c :: t'').getLast? ≠ some 0 := by
          rw [List.getLast?_cons_cons] at hl
          exact hl
        have h' : hasSC3 (b :: c :: t'') = false := hasSC3_tail h
        have hg3 : ¬(a = 0 ∧ b = 0 ∧ c = 1) := not_sc3_of_hasSC3_false h
        have ih := tryLoop_skip (b :: c :: t'') (0 :: 0 :: 1 :: E') p h' hl'
          (Or.inr ⟨E', rfl⟩)
        match t'' with
        | [] =>
            simp only [List.cons_append, List.nil_append] at ih ⊢
            rw [tryLoop, if_neg (by simp), if_neg hg3, ih]
        | [z] =>
            have hg4 : ¬(a = 0 ∧ b = 0 ∧ c = 0 ∧ z = 1) := not_sc4_of_hasSC3_false h
            simp only [List.cons_append, List.nil_append] at ih ⊢
            rw [tryLoop, if_neg hg4, if_neg hg3, ih]
        | z :: w :: t''' =>
            have hg4 : ¬(a = 0 ∧ b = 0 ∧ c = 0 ∧ z = 1) := not_sc4_of_hasSC3_false h
            simp only [List.cons_append] at ih ⊢
            rw [tryLoop, if_neg hg4, if_neg hg3, ih]

theorem tryUpdate_ne (ty : Nat) (nal : List Nat) (p : H264Parameters)
    (h7 : ty ≠ 7) (h8 : ty ≠ 8) : tryUpdate ty nal p = p := by
  unfold tryUpdate
  rw [if_neg h7, if_neg h8]

theorem encode3_cons (c : Chunk) (cs : List Chunk) :
    encode3 (c :: cs) = 0 :: 0 :: 1 :: (c.nal ++ encode3 cs) := by
  simp [encode3, Chunk.bytes, sc3]

theorem chunkScan_cons (c : Chunk) (rest : List Chunk) (p : H264Parameters) :
    chunkScan (c :: rest) p =
      (if (tryUpdate (chunkTy c) c.nal p).SPS.isSome ∧
          (tryUpdate (chunkTy c) c.nal p).PPS.isSome
       then tryUpdate (chunkTy c) c.nal p
       else chunkScan rest (tryUpdate (chunkTy c) c.nal p)) := rfl

/-- The `tryParseH264Parameters` loop at a 3-byte start code with at
least two further bytes: the 3-byte branch fires. -/
theorem tryLoop_fire3 (d e : Nat) (rest : List Nat) (p : H264Parameters) :
    tryLoop (0 :: 0 :: 1 :: d :: e :: rest) p =
      (if (tryUpdate (d % 32) (d :: (spanT3 (e :: rest)).1) p).SPS.isSome ∧
          (tryUpdate (d % 32) (d :: (spanT3 (e :: rest)).1) p).PPS.isSome
       then tryUpdate (d % 32) (d :: (spanT3 (e :: rest)).1) p
       else tryLoop (0 :: 1 :: d :: e :: rest)
              (tryUpdate (d % 32) (d :: (spanT3 (e :: rest)).1) p)) := by
  conv_lhs => rw [tryLoop]
  conv_lhs =>
    rw [if_neg (show ¬((0 : Nat) = 0 ∧ (0 : Nat) = 0 ∧ (1 : Nat) = 0 ∧ d = 1) by simp)]
  conv_lhs =>
    rw [if_pos (show (0 : Nat) = 0 ∧ (0 : Nat) = 0 ∧ (1 : Nat) = 1 from ⟨rfl, rfl, rfl⟩)]

/-- Processing one well-formed block whose NAL is followed by another
start code: the scanner fires at the block's start code, recovers the
NAL byte-exactly, applies the first-wins update, and either returns (both
parameter sets found) or resumes at the following start code. -/
theorem tryLoop_chunk_step (hd : Nat) (tl E' : List Nat) (p : H264Parameters)
    (hsc : hasSC3 (hd :: tl) = false)
    (hgl : (hd :: tl).getLast? ≠ some 0) :
    tryLoop (0 :: 0 :: 1 :: (hd :: tl ++ (0 :: 0 :: 1 :: E'))) p =
      (if (tryUpdate (hd % 32) (hd :: tl) p).SPS.isSome ∧
          (tryUpdate (hd % 32) (hd :: tl) p).PPS.isSome
       then tryUpdate (hd % 32) (hd :: tl) p
       else tryLoop (0 :: 0 :: 1 :: E') (tryUpdate (hd % 32) (hd :: tl) p)) := by
  cases tl with
  | nil =>
      have hspan : spanT3 (0 :: 0 :: 1 :: E') = ([], 0 :: 0 :: 1 :: E') := by
        rw [spanT3, if_pos ⟨rfl, rfl, rfl⟩]
      have hskip : tryLoop (0 :: 1 :: hd :: 0 :: 0 :: 1 :: E')
            (tryUpdate (hd % 32) [hd] p) =
          tryLoop (0 :: 0 :: 1 :: E') (tryUpdate (hd % 32) [hd] p) := by
        have hsc' : hasSC3 (0 :: 1 :: [hd]) = false := by
          rw [hasSC3_cons01]
          rfl
        have hgl' : (0 :: 1 :: [hd]).getLast? ≠ some 0 := by
          rw [List.getLast?_cons_cons, List.getLast?_cons_cons]
          exact hgl
        exact tryLoop_skip (0 :: 1 :: [hd]) (0 :: 0 :: 1 :: E') _ hsc' hgl'
          (Or.inr ⟨E', rfl⟩)
      simp only [List.nil_append, List.cons_append]
      rw [tryLoop_fire3, hspan]
      dsimp only
      rw [hskip]
  | cons e tl' =>
      have hspan : spanT3 (e :: (tl' ++ 0 :: 0 :: 1 :: E')) =
          (e :: tl', 0 :: 0 :: 1 :: E') := by
        have h' : hasSC3 (e :: tl') = false := hasSC3_tail hsc
        have hx := spanT3_exact (e :: tl') E' h'
        simpa using hx
      have hskip : tryLoop (0 :: 1 :: hd :: e :: (tl' ++ 0 :: 0 :: 1 :: E'))
            (tryUpdate (hd % 32) (hd :: e :: tl') p) =
          tryLoop (0 :: 0 :: 1 :: E') (tryUpdate (hd % 32) (hd :: e :: tl') p) := by
        have hsc' : hasSC3 (0 :: 1 :: hd :: e :: tl') = false := by
          rw [hasSC3_cons01]
          exact hsc
        have hgl' : (0 :: 1 :: hd :: e :: tl').getLast? ≠ some 0 := by
          rw [List.getLast?_cons_cons, List.getLast?_cons_cons]
          exact hgl
        have hx := tryLoop_skip (0 :: 1 :: hd :: e :: tl') (0 :: 0 :: 1 :: E')
          (tryUpdate (hd % 32) (hd :: e :: tl') p) hsc' hgl' (Or.inr ⟨E', rfl⟩)
        simpa using hx
      simp only [List.cons_append]
      rw [tryLoop_fire3, hspan]
      dsimp only
      rw [hskip]

/-- `tryParseH264Parameters` on a buffer of well-formed 3-byte-delimited
blocks whose final block is not a parameter set: the byte-level scan
agrees with the block-level reference scan (first occurrence of each
type wins, stop as soon as both are present). -/
theorem tryLoop_encode3 : ∀ (cs : List Chunk) (p : H264Parameters),
    (∀ c ∈ cs, wfNal c.nal) →
    (∀ c, cs.getLast? = some c → chunkTy c ≠ 7 ∧ chunkTy c ≠ 8) →
    tryLoop (encode3 cs) p = chunkScan cs p
  | [], p, _, _ => rfl
  | [c], p, hwf, hlast => by
      obtain ⟨hne, hsc, hgl⟩ := hwf c (by simp)
      obtain ⟨hty7, hty8⟩ := hlast c rfl
      have hRHS : chunkScan [c] p = p := by
        rw [chunkScan_cons, tryUpdate_ne _ _ _ hty7 hty8]
        split <;> rfl
      rw [hRHS, encode3_cons]
      obtain ⟨hd, tl, hnal⟩ : ∃ hd tl, c.nal = hd :: tl := by
        match hcn : c.nal with
        | [] => exact absurd hcn hne
        | x :: xs => exact ⟨x, xs, rfl⟩
      have hty7' : hd % 32 ≠ 7 := by
        rw [chunkTy, hnal] at hty7
        exact hty7
      have hty8' : hd % 32 ≠ 8 := by
        rw [chunkTy, hnal] at hty8
        exact hty8
      rw [hnal] at hsc hgl ⊢
      cases tl with
      | nil =>
          show tryLoop (0 :: 0 :: 1 :: ([hd] ++ encode3 [])) p = p
          rfl
      | cons e tl' =>
          show tryLoop (0 :: 0 :: 1 :: (hd :: e :: tl' ++ encode3 [])) p = p
          have henc : (hd :: e :: tl') ++ encode3 [] = hd :: e :: tl' := by
            simp [encode3]
          rw [henc]
          rw [tryLoop_fire3]
          rw [tryUpdate_ne _ _ _ hty7' hty8']
          have hnc : tryLoop (0 :: 1 :: hd :: e :: tl') p = p := by
            apply tryLoop_noCode
            rw [hasSC3_cons01]
            exact hsc
          rw [hnc]
          split <;> rfl
  | c :: c2 :: rest', p, hwf, hlast => by
      obtain ⟨hne, hsc, hgl⟩ := hwf c (by simp)
      obtain ⟨hd, tl, hnal⟩ : ∃ hd tl, c.nal = hd :: tl := by
        match hcn : c.nal with
        | [] => exact absurd hcn hne
        | x :: xs => exact ⟨x, xs, rfl⟩
      have hchunkTy : chunkTy c = hd % 32 := by
        rw [chunkTy, hnal]
        rfl
      have hE : encode3 (c2 :: rest') = 0 :: 0 :: 1 :: (c2.nal ++ encode3 rest') :=
        encode3_cons c2 rest'
      rw [encode3_cons, hnal, hE]
      rw [tryLoop_chunk_step hd tl (c2.nal ++ encode3 rest') p (hnal ▸ hsc) (hnal ▸ hgl)]
      rw [chunkScan_cons, hchunkTy, hnal, ← hE]
      split
      · rfl
      · exact tryLoop_encode3 (c2 :: rest') _ (fun x hx => hwf x (by simp [hx]))
          (fun x hx => hlast x (by rw [List.getLast?_cons_cons]; exact hx))

/-! ## First-wins / last-wins characterizations of the scan loops -/

theorem getLast?_tail {a : Nat} {t : List Nat}
    (h : (a :: t).getLast? ≠ some 0) : t.getLast? ≠ some 0 := by
  cases t with
  | nil => simp
  | cons x xs =>
      rw [List.getLast?_cons_cons] at h
      exact h

/-- Blocks recorded as SPS by the first-wins update: type 7 and length
greater than 3. -/
def spsPred (c : Chunk) : Bool := (chunkTy c == 7) && decide (3 < c.nal.length)

/-- Blocks recorded as PPS by the first-wins update: type 8 and length
greater than 3. -/
def ppsPred (c : Chunk) : Bool := (chunkTy c == 8) && decide (3 < c.nal.length)

theorem tryUpdate_SPS_some {ty : Nat} {nal : List Nat} {p : H264Parameters}
    {v : List Nat} (h : p.SPS = some v) : (tryUpdate ty nal p).SPS = some v := by
  unfold tryUpdate
  split_ifs <;> simp_all

theorem tryUpdate_PPS_some {ty : Nat} {nal : List Nat} {p : H264Parameters}
    {v : List Nat} (h : p.PPS = some v) : (tryUpdate ty nal p).PPS = some v := by
  unfold tryUpdate
  split_ifs <;> simp_all

theorem tryUpdate_SPS_none {ty : Nat} {nal : List Nat} {p : H264Parameters}
    (h : p.SPS = none) (hno : ¬(ty = 7 ∧ 3 < nal.length)) :
    (tryUpdate ty nal p).SPS = none := by
  unfold tryUpdate
  split_ifs <;> simp_all

theorem tryUpdate_PPS_none {ty : Nat} {nal : List Nat} {p : H264Parameters}
    (h : p.PPS = none) (hno : ¬(ty = 8 ∧ 3 < nal.length)) :
    (tryUpdate ty nal p).PPS = none := by
  unfold tryUpdate
  split_ifs <;> simp_all

theorem tryUpdate_SPS_set {ty : Nat} {nal : List Nat} {p : H264Parameters}
    (h : p.SPS = none) (h7 : ty = 7) (hlen : 3 < nal.length) :
    (tryUpdate ty nal p).SPS = some nal := by
  subst h7
  unfold tryUpdate
  rw [if_pos rfl, if_pos ⟨h, hlen⟩]

theorem tryUpdate_PPS_set {ty : Nat} {nal : List Nat} {p : H264Parameters}
    (h : p.PPS = none) (h8 : ty = 8) (hlen : 3 < nal.length) :
    (tryUpdate ty nal p).PPS = some nal := by
  subst h8
  unfold tryUpdate
  rw [if_neg (by decide), if_pos rfl, if_pos ⟨h, hlen⟩]

theorem chunkScan_SPS_some : ∀ (cs : List Chunk) (p : H264Parameters) (v : List Nat),
    p.SPS = some v → (chunkScan cs p).SPS = some v
  | [], _, _, h => h
  | c :: rest, p, v, h => by
      rw [chunkScan_cons]
      have h' := @tryUpdate_SPS_some (chunkTy c) c.nal _ _ h
      split
      · exact h'
      · exact chunkScan_SPS_some rest _ v h'

theorem chunkScan_PPS_some : ∀ (cs : List Chunk) (p : H264Parameters) (v : List Nat),
    p.PPS = some v → (chunkScan cs p).PPS = some v
  | [], _, _, h => h
  | c :: rest, p, v, h => by
      rw [chunkScan_cons]
      have h' := @tryUpdate_PPS_some (chunkTy c) c.nal _ _ h
      split
      · exact h'
      · exact chunkScan_PPS_some rest _ v h'

theorem chunkScan_SPS_none : ∀ (cs : List Chunk) (p : H264Parameters),
    p.SPS = none →
    (chunkScan cs p).SPS = (cs.find? spsPred).map Chunk.nal
  | [], p, h => by simpa using h
  | c :: rest, p, h => by
      rw [chunkScan_cons]
      by_cases hc : spsPred c = true
      · have hc' : chunkTy c = 7 ∧ 3 < c.nal.length := by
          simpa [spsPred] using hc
        have hset := tryUpdate_SPS_set h hc'.1 hc'.2
        rw [List.find?_cons_of_pos _ hc]
        split
        · simp [hset]
        · have hrec := chunkScan_SPS_some rest _ c.nal hset
          simp [hrec]
      · have hc' : ¬(chunkTy c = 7 ∧ 3 < c.nal.length) := by
          simpa [spsPred] using hc
        have hnone := tryUpdate_SPS_none h hc'
        rw [List.find?_cons_of_neg _ (by simpa using hc)]
        split
        · rename_i hboth
          rw [hnone] at hboth
          simp at hboth
        · exact chunkScan_SPS_none rest _ hnone

theorem chunkScan_PPS_none : ∀ (cs : List Chunk) (p : H264Parameters),
    p.PPS = none →
    (chunkScan cs p).PPS = (cs.find? ppsPred).map Chunk.nal
  | [], p, h => by simpa using h
  | c :: rest, p, h => by
      rw [chunkScan_cons]
      by_cases hc : ppsPred c = true
      · have hc' : chunkTy c = 8 ∧ 3 < c.nal.length := by
          simpa [ppsPred] using hc
        have hset := tryUpdate_PPS_set h hc'.1 hc'.2
        rw [List.find?_cons_of_pos _ hc]
        split
        · simp [hset]
        · have hrec := chunkScan_PPS_some rest _ c.nal hset
          simp [hrec]
      · have hc' : ¬(chunkTy c = 8 ∧ 3 < c.nal.length) := by
          simpa [ppsPred] using hc
        have hnone := tryUpdate_PPS_none h hc'
        rw [List.find?_cons_of_neg _ (by simpa using hc)]
        split
        · rename_i hboth
          rw [hnone] at hboth
          simp at hboth
        · exact chunkScan_PPS_none rest _ hnone

theorem chunkScan_bothSome : ∀ (cs : List Chunk) (p : H264Parameters),
    p.SPS.isSome = true → p.PPS.isSome = true → chunkScan cs p = p
  | [], _, _, _ => rfl
  | c :: rest, p, h1, h2 => by
      rw [chunkScan_cons]
      have e1 : tryUpdate (chunkTy c) c.nal p = p := by
        unfold tryUpdate
        split_ifs <;> simp_all
      rw [e1, if_pos ⟨h1, h2⟩]

theorem chunkScan_append : ∀ (cs₁ cs₂ : List Chunk) (p : H264Parameters),
    chunkScan (cs₁ ++ cs₂) p = chunkScan cs₂ (chunkScan cs₁ p)
  | [], _, _ => rfl
  | c :: rest, cs₂, p => by
      rw [List.cons_append, chunkScan_cons, chunkScan_cons]
      split
      · rename_i hboth
        exact (chunkScan_bothSome cs₂ _ hboth.1 hboth.2).symm
      · exact chunkScan_append rest cs₂ _

/-- When a list's filter by `P` is the single element `c0` and `c0` also
satisfies `R`, the first element satisfying `P && R` is `c0`. -/
theorem find?_and_of_filter_singleton (P R : Chunk → Bool) :
    ∀ (cs : List Chunk) (c0 : Chunk), cs.filter P = [c0] → R c0 = true →
      cs.find? (fun c => P c && R c) = some c0
  | [], c0, hf, _ => by simp at hf
  | c :: rest, c0, hf, hr => by
      by_cases hp : P c = true
      · rw [List.filter_cons_of_pos hp] at hf
        obtain ⟨h1, h2⟩ := List.cons.inj hf
        subst h1
        rw [List.find?_cons_of_pos _ (by simp [hp, hr])]
      · rw [List.filter_cons_of_neg (by simpa using hp)] at hf
        rw [List.find?_cons_of_neg _ (by simp [hp])]
        exact find?_and_of_filter_singleton P R rest c0 hf hr

/-! ## `parseH264Parameters` over structured buffers -/

theorem spanP_consume (a : Nat) (rest : List Nat)
    (hb1 : ∀ x xs, a :: rest ≠ 0 :: 0 :: 1 :: x :: xs)
    (hb2 : ∀ y ys, a :: rest ≠ 0 :: 0 :: 0 :: 1 :: y :: ys) :
    spanP (a :: rest) = (a :: (spanP rest).1, (spanP rest).2) := by
  rw [spanP.eq_def]
  split
  · rename_i x xs heq
    exact absurd heq (hb1 x xs)
  · rename_i y ys heq
    exact absurd heq (hb2 y ys)
  · rename_i a' rest' heq
    obtain ⟨h1, h2⟩ := List.cons.inj heq
    subst h1
    subst h2
    rfl
  · rename_i heq
    simp at heq

theorem spanP_noCode : ∀ (t : List Nat), hasSC3 t = false → spanP t = (t, [])
  | [], _ => rfl
  | a :: rest, h => by
      rw [spanP_consume a rest ?hb1 ?hb2]
      case hb1 =>
        intro x xs heq
        rw [heq, hasSC3_prefix_001] at h
        cases h
      case hb2 =>
        intro y ys heq
        rw [heq] at h
        have h2 := hasSC3_tail h
        rw [hasSC3_prefix_001] at h2
        cases h2
      rw [spanP_noCode rest (hasSC3_tail h)]

/-- A start-code-free run not ending in zero, followed by a 3-byte start
code and a nonempty remainder, is consumed exactly by the
`parseH264Parameters` end-scan. -/
theorem spanP_exact : ∀ (t : List Nat) (r0 : Nat) (r' : List Nat),
    hasSC3 t = false → t.getLast? ≠ some 0 →
    spanP (t ++ 0 :: 0 :: 1 :: r0 :: r') = (t, 0 :: 0 :: 1 :: r0 :: r')
  | [], r0, r', _, _ => by
      rw [List.nil_append, spanP]
  | [a], r0, r', h, hl => by
      have ha : a ≠ 0 := fun h0 => hl (by simp [h0])
      simp only [List.cons_append, List.nil_append]
      rw [spanP_consume _ _ (by intro x xs heq; simp at heq)
            (by intro y ys heq; simp at heq; exact ha heq.1)]
      rw [spanP]
  | [a, t1], r0, r', h, hl => by
      simp only [List.cons_append, List.nil_append]
      rw [spanP_consume _ _ (by intro x xs heq; simp at heq)
            (by intro y ys heq; simp at heq)]
      have ht1 : t1 ≠ 0 := fun h0 => hl (by simp [h0])
      rw [spanP_consume _ _ (by intro x xs heq; simp at heq)
            (by intro y ys heq; simp at heq; exact ht1 heq.1)]
      rw [spanP]
  | [a, t1, t2], r0, r', h, hl => by
      simp only [List.cons_append, List.nil_append]
      rw [spanP_consume _ _
            (by intro x xs heq; simp at heq
                exact not_sc3_of_hasSC3_false h ⟨heq.1, heq.2.1, heq.2.2.1⟩)
            (by intro y ys heq; simp at heq)]
      have h' : (t1 :: t2 :: []).getLast? ≠ some 0 := getLast?_tail hl
      have hx := spanP_exact [t1, t2] r0 r' (hasSC3_tail h) h'
      simp only [List.cons_append, List.nil_append] at hx
      rw [hx]
  | a :: t1 :: t2 :: t3 :: t'', r0, r', h, hl => by
      simp only [List.cons_append]
      rw [spanP_consume _ _
            (by intro x xs heq; simp at heq
                exact not_sc3_of_hasSC3_false h ⟨heq.1, heq.2.1, heq.2.2.1⟩)
            (by intro y ys heq; simp at heq
                exact not_sc4_of_hasSC3_false h
                  ⟨heq.1, heq.2.1, heq.2.2.1, heq.2.2.2.1⟩)]
      have hx := spanP_exact (t1 :: t2 :: t3 :: t'') r0 r' (hasSC3_tail h)
        (getLast?_tail hl)
      simp only [List.cons_append] at hx
      rw [hx]

theorem pLoop_nil (p : H264Parameters) : pLoop [] p = p := by
  rw [pLoop.eq_def]

/-- The `parseH264Parameters` loop at a 3-byte start code with a
following byte: the 3-byte branch fires and the loop resumes at the
end-scan's break position. -/
theorem pLoop_fire3 (b : Nat) (rest : List Nat) (p : H264Parameters) :
    pLoop (0 :: 0 :: 1 :: b :: rest) p =
      pLoop (spanP rest).2 (pUpdate (b % 32) (b :: (spanP rest).1) p) := by
  rw [pLoop.eq_def]

theorem pChunkScan_cons (c : Chunk) (rest : List Chunk) (p : H264Parameters) :
    pChunkScan (c :: rest) p = pChunkScan rest (pUpdate (chunkTy c) c.nal p) := rfl

/-- `parseH264Parameters` on a buffer of well-formed 3-byte-delimited
blocks: the byte-level scan agrees with the block-level reference scan
(every block processed, overwriting update). -/
theorem pLoop_encode3 : ∀ (cs : List Chunk) (p : H264Parameters),
    (∀ c ∈ cs, wfNal c.nal) →
    pLoop (encode3 cs) p = pChunkScan cs p
  | [], p, _ => pLoop_nil p
  | c :: rest, p, hwf => by
      obtain ⟨hne, hsc, hgl⟩ := hwf c (by simp)
      obtain ⟨hd, tl, hnal⟩ : ∃ hd tl, c.nal = hd :: tl := by
        match hcn : c.nal with
        | [] => exact absurd hcn hne
        | x :: xs => exact ⟨x, xs, rfl⟩
      have hchunkTy : chunkTy c = hd % 32 := by
        rw [chunkTy, hnal]
        rfl
      rw [encode3_cons, hnal]
      rw [hnal] at hsc hgl
      simp only [List.cons_append]
      rw [pLoop_fire3]
      match rest with
      | [] =>
          have hsp : spanP (tl ++ encode3 []) = (tl, []) := by
            have : encode3 [] = [] := rfl
            rw [this, List.append_nil]
            exact spanP_noCode tl (hasSC3_tail hsc)
          rw [hsp]
          rw [pLoop_nil, pChunkScan_cons, hchunkTy, hnal]
          rfl
      | c2 :: rest' =>
          obtain ⟨hne2, _, _⟩ := hwf c2 (by simp)
          obtain ⟨hd2, tl2, hnal2⟩ : ∃ hd tl, c2.nal = hd :: tl := by
            match hcn : c2.nal with
            | [] => exact absurd hcn hne2
            | x :: xs => exact ⟨x, xs, rfl⟩
          have hE : encode3 (c2 :: rest') =
              0 :: 0 :: 1 :: hd2 :: (tl2 ++ encode3 rest') := by
            rw [encode3_cons, hnal2]
            simp only [List.cons_append]
          have hsp : spanP (tl ++ encode3 (c2 :: rest')) =
              (tl, 0 :: 0 :: 1 :: hd2 :: (tl2 ++ encode3 rest')) := by
            rw [hE]
            exact spanP_exact tl hd2 (tl2 ++ encode3 rest') (hasSC3_tail hsc)
              (getLast?_tail hgl)
          rw [hsp]
          dsimp only
          have hrec := pLoop_encode3 (c2 :: rest')
            (pUpdate (hd % 32) (hd :: tl) p)
            (fun x hx => hwf x (by simp [hx]))
          rw [hE] at hrec
          rw [hrec]
          conv_rhs => rw [pChunkScan_cons, hchunkTy, hnal]

theorem pUpdate_SPS (ty : Nat) (nal : List Nat) (p : H264Parameters) :
    (pUpdate ty nal p).SPS = if ty = 7 then some nal else p.SPS := by
  unfold pUpdate
  by_cases h7 : ty = 7
  · rw [if_pos h7, if_pos h7]
  · rw [if_neg h7, if_neg h7]
    by_cases h8 : ty = 8
    · rw [if_pos h8]
    · rw [if_neg h8]

theorem pUpdate_PPS (ty : Nat) (nal : List Nat) (p : H264Parameters) :
    (pUpdate ty nal p).PPS = if ty = 8 then some nal else p.PPS := by
  unfold pUpdate
  by_cases h7 : ty = 7
  · rw [if_pos h7]
    rw [if_neg (by rw [h7]; decide)]
  · rw [if_neg h7]
    by_cases h8 : ty = 8
    · rw [if_pos h8, if_pos h8]
    · rw [if_neg h8, if_neg h8]

/-- In `parseH264Parameters` the LAST block of type 7 wins. -/
theorem pChunkScan_SPS : ∀ (cs : List Chunk) (p : H264Parameters),
    (pChunkScan cs p).SPS =
      (match (cs.filter (fun c => chunkTy c == 7)).getLast? with
       | some c => some c.nal
       | none => p.SPS)
  | [], p => rfl
  | c :: rest, p => by
      rw [pChunkScan_cons, pChunkScan_SPS rest]
      by_cases h7 : chunkTy c = 7
      · rw [List.filter_cons_of_pos (by simp [h7]), List.getLast?_cons]
        cases hf : (rest.filter (fun c => chunkTy c == 7)).getLast? with
        | none =>
            simp only [Option.getD_none]
            rw [pUpdate_SPS, if_pos h7]
        | some c' =>
            simp only [Option.getD_some]
      · rw [List.filter_cons_of_neg (by simp [h7])]
        cases hf : (rest.filter (fun c => chunkTy c == 7)).getLast? with
        | none =>
            rw [pUpdate_SPS, if_neg h7]
        | some c' => rfl

/-- In `parseH264Parameters` the LAST block of type 8 wins. -/
theorem pChunkScan_PPS : ∀ (cs : List Chunk) (p : H264Parameters),
    (pChunkScan cs p).PPS =
      (match (cs.filter (fun c => chunkTy c == 8)).getLast? with
       | some c => some c.nal
       | none => p.PPS)
  | [], p => rfl
  | c :: rest, p => by
      rw [pChunkScan_cons, pChunkScan_PPS rest]
      by_cases h8 : chunkTy c = 8
      · rw [List.filter_cons_of_pos (by simp [h8]), List.getLast?_cons]
        cases hf : (rest.filter (fun c => chunkTy c == 8)).getLast? with
        | none =>
            simp only [Option.getD_none]
            rw [pUpdate_PPS, if_pos h8]
        | some c' =>
            simp only [Option.getD_some]
      · rw [List.filter_cons_of_neg (by simp [h8])]
        cases hf : (rest.filter (fun c => chunkTy c == 8)).getLast? with
        | none =>
            rw [pUpdate_PPS, if_neg h8]
        | some c' => rfl

/-! ## `ExtractH264ParametersFromStream` NAL-loop characterization -/

/-- NAL units of type 7. -/
def isSPSNalu (n : List Nat) : Bool := n.headD 0 % 32 == 7

/-- NAL units of type 8. -/
def isPPSNalu (n : List Nat) : Bool := n.headD 0 % 32 == 8

theorem streamScanNalus_cons (nalu : List Nat) (rest : List (List Nat))
    (p : H264Parameters) :
    streamScanNalus (nalu :: rest) p =
      (if (streamUpdate nalu p).SPS.isSome ∧ (streamUpdate nalu p).PPS.isSome
       then streamUpdate nalu p
       else streamScanNalus rest (streamUpdate nalu p)) := rfl

theorem streamUpdate_SPS_some {nalu v : List Nat} {p : H264Parameters}
    (h : p.SPS = some v) : (streamUpdate nalu p).SPS = some v := by
  unfold streamUpdate
  split_ifs <;> simp_all

theorem streamUpdate_PPS_some {nalu v : List Nat} {p : H264Parameters}
    (h : p.PPS = some v) : (streamUpdate nalu p).PPS = some v := by
  unfold streamUpdate
  split_ifs <;> simp_all

theorem streamUpdate_SPS_none {nalu : List Nat} {p : H264Parameters}
    (h : p.SPS = none) (hno : ¬nalu.headD 0 % 32 = 7) :
    (streamUpdate nalu p).SPS = none := by
  unfold streamUpdate
  split_ifs <;> simp_all

theorem streamUpdate_PPS_none {nalu : List Nat} {p : H264Parameters}
    (h : p.PPS = none) (hno : ¬nalu.headD 0 % 32 = 8) :
    (streamUpdate nalu p).PPS = none := by
  unfold streamUpdate
  split_ifs <;> simp_all

theorem streamUpdate_SPS_set {nalu : List Nat} {p : H264Parameters}
    (h : p.SPS = none) (h7 : nalu.headD 0 % 32 = 7) :
    (streamUpdate nalu p).SPS = some nalu := by
  unfold streamUpdate
  rw [if_pos h7, if_pos h]

theorem streamUpdate_PPS_set {nalu : List Nat} {p : H264Parameters}
    (h : p.PPS = none) (h8 : nalu.headD 0 % 32 = 8) :
    (streamUpdate nalu p).PPS = some nalu := by
  unfold streamUpdate
  rw [if_neg (by rw [h8]; decide), if_pos h8, if_pos h]

theorem streamScan_SPS_some : ∀ (ns : List (List Nat)) (p : H264Parameters)
    (v : List Nat), p.SPS = some v → (streamScanNalus ns p).SPS = some v
  | [], _, _, h => h
  | n :: rest, p, v, h => by
      rw [streamScanNalus_cons]
      have h' := @streamUpdate_SPS_some n _ _ h
      split
      · exact h'
      · exact streamScan_SPS_some rest _ v h'

theorem streamScan_PPS_some : ∀ (ns : List (List Nat)) (p : H264Parameters)
    (v : List Nat), p.PPS = some v → (streamScanNalus ns p).PPS = some v
  | [], _, _, h => h
  | n :: rest, p, v, h => by
      rw [streamScanNalus_cons]
      have h' := @streamUpdate_PPS_some n _ _ h
      split
      · exact h'
      · exact streamScan_PPS_some rest _ v h'

theorem streamScan_SPS_none : ∀ (ns : List (List Nat)) (p : H264Parameters),
    p.SPS = none → (streamScanNalus ns p).SPS = ns.find? isSPSNalu
  | [], p, h => by simpa using h
  | n :: rest, p, h => by
      rw [streamScanNalus_cons]
      by_cases hc : isSPSNalu n = true
      · have h7 : n.headD 0 % 32 = 7 := by simpa [isSPSNalu] using hc
        have hset := streamUpdate_SPS_set h h7
        rw [List.find?_cons_of_pos _ hc]
        split
        · exact hset
        · exact streamScan_SPS_some rest _ n hset
      · have h7 : ¬n.headD 0 % 32 = 7 := by simpa [isSPSNalu] using hc
        have hnone := streamUpdate_SPS_none h h7
        rw [List.find?_cons_of_neg _ (by simpa using hc)]
        split
        · rename_i hboth
          rw [hnone] at hboth
          simp at hboth
        · exact streamScan_SPS_none rest _ hnone

theorem streamScan_PPS_none : ∀ (ns : List (List Nat)) (p : H264Parameters),
    p.PPS = none → (streamScanNalus ns p).PPS = ns.find? isPPSNalu
  | [], p, h => by simpa using h
  | n :: rest, p, h => by
      rw [streamScanNalus_cons]
      by_cases hc : isPPSNalu n = true
      · have h8 : n.headD 0 % 32 = 8 := by simpa [isPPSNalu] using hc
        have hset := streamUpdate_PPS_set h h8
        rw [List.find?_cons_of_pos _ hc]
        split
        · exact hset
        · exact streamScan_PPS_some rest _ n hset
      · have h8 : ¬n.headD 0 % 32 = 8 := by simpa [isPPSNalu] using hc
        have hnone := streamUpdate_PPS_none h h8
        rw [List.find?_cons_of_neg _ (by simpa using hc)]
        split
        · rename_i hboth
          rw [hnone] at hboth
          simp at hboth
        · exact streamScan_PPS_none rest _ hnone

theorem streamScan_bothSome : ∀ (ns : List (List Nat)) (p : H264Parameters),
    p.SPS.isSome = true → p.PPS.isSome = true → streamScanNalus ns p = p
  | [], _, _, _ => rfl
  | n :: rest, p, h1, h2 => by
      rw [streamScanNalus_cons]
      have e1 : streamUpdate n p = p := by
        unfold streamUpdate
        split_ifs <;> simp_all
      rw [e1, if_pos ⟨h1, h2⟩]

theorem streamScan_append : ∀ (ns₁ ns₂ : List (List Nat)) (p : H264Parameters),
    streamScanNalus (ns₁ ++ ns₂) p = streamScanNalus ns₂ (streamScanNalus ns₁ p)
  | [], _, _ => rfl
  | n :: rest, ns₂, p => by
      rw [List.cons_append, streamScanNalus_cons, streamScanNalus_cons]
      split
      · rename_i hboth
        exact (streamScan_bothSome ns₂ _ hboth.1 hboth.2).symm
      · exact streamScan_append rest ns₂ _

/-! ## Claim theorems: SPS/PPS scanners -/

/-- Claim C3, counterexample.  Two valid Annex-B buffers, each with
exactly one SPS and one PPS, on which the direct byte-stream scan
(`tryParseH264Parameters`) is not byte-exact.  First buffer: SPS
`[103,1,2,3,4]` then PPS `[104,5,6,7,8,9]`, 3-byte start codes; the
end-scan loop bound `len(data)-2` truncates the trailing PPS to
`[104,5,6,7]`.  Second buffer: the same SPS followed by a 4-byte start
code (then PPS and a type-1 NAL); the recovered SPS `[103,1,2,3,4,0]`
carries a spurious zero byte taken from the following 4-byte start
code. -/
theorem scan_byteexact_counterexample :
    tryParseH264Parameters [0, 0, 1, 103, 1, 2, 3, 4, 0, 0, 1, 104, 5, 6, 7, 8, 9] =
      some { SPS := some [103, 1, 2, 3, 4], PPS := some [104, 5, 6, 7] } ∧
    (some [104, 5, 6, 7] : Option (List Nat)) ≠ some [104, 5, 6, 7, 8, 9] ∧
    tryParseH264Parameters
        [0, 0, 1, 103, 1, 2, 3, 4, 0, 0, 0, 1, 104, 5, 6, 7, 8, 0, 0, 1, 65, 9, 9, 9] =
      some { SPS := some [103, 1, 2, 3, 4, 0], PPS := some [104, 5, 6, 7, 8] } ∧
    (some [103, 1, 2, 3, 4, 0] : Option (List Nat)) ≠ some [103, 1, 2, 3, 4] :=
  ⟨by decide, by decide, by decide, by decide⟩

/-- Claim C3, amended.  For every Annex-B buffer made of
3-byte-start-code-delimited well-formed NAL units (nonempty, free of
internal start-code patterns, last byte nonzero) containing exactly one
type-7 unit and exactly one type-8 unit — in either relative order, each
longer than 3 bytes, surrounded by arbitrary other NAL types — whose
final unit is not one of the two parameter sets (so each is followed by
a further start code), the direct byte-stream scan returns both the SPS
and the PPS byte-for-byte (header included, start codes excluded).  The
counterexample shows the claim's further allowances (4-byte start
codes, a parameter set ending the buffer) fail for this scan. -/
theorem scan_byteexact_amended (cs : List Chunk) (spsNal ppsNal : List Nat)
    (hwf : ∀ c ∈ cs, wfNal c.nal)
    (hS : cs.filter (fun c => chunkTy c == 7) = [⟨spsNal⟩])
    (hP : cs.filter (fun c => chunkTy c == 8) = [⟨ppsNal⟩])
    (hSlen : 3 < spsNal.length) (hPlen : 3 < ppsNal.length)
    (hlast : ∀ c, cs.getLast? = some c → chunkTy c ≠ 7 ∧ chunkTy c ≠ 8) :
    tryParseH264Parameters (encode3 cs) =
      some { SPS := some spsNal, PPS := some ppsNal } := by
  have hmain := tryLoop_encode3 cs noParams hwf hlast
  have hfS : cs.find? spsPred = some ⟨spsNal⟩ :=
    find?_and_of_filter_singleton (fun c => chunkTy c == 7)
      (fun c => decide (3 < c.nal.length)) cs ⟨spsNal⟩ hS (decide_eq_true hSlen)
  have hfP : cs.find? ppsPred = some ⟨ppsNal⟩ :=
    find?_and_of_filter_singleton (fun c => chunkTy c == 8)
      (fun c => decide (3 < c.nal.length)) cs ⟨ppsNal⟩ hP (decide_eq_true hPlen)
  have hSPS : (tryLoop (encode3 cs) noParams).SPS = some spsNal := by
    rw [hmain, chunkScan_SPS_none cs noParams rfl, hfS]
    rfl
  have hPPS : (tryLoop (encode3 cs) noParams).PPS = some ppsNal := by
    rw [hmain, chunkScan_PPS_none cs noParams rfl, hfP]
    rfl
  have hrec : tryLoop (encode3 cs) noParams =
      { SPS := some spsNal, PPS := some ppsNal } := by
    cases hp : tryLoop (encode3 cs) noParams with
    | mk s pp =>
        rw [hp] at hSPS hPPS
        simp only at hSPS hPPS
        rw [hSPS, hPPS]
  unfold tryParseH264Parameters
  rw [hrec]
  simp

/-- Claim C3, witness for the amended theorem: SPS, PPS and a trailing
type-1 NAL unit. -/
theorem scan_byteexact_amended_witness :
    tryParseH264Parameters
        (encode3 [⟨[103, 1, 2, 3, 4]⟩, ⟨[104, 5, 6, 7, 8]⟩, ⟨[65, 9]⟩]) =
      some { SPS := some [103, 1, 2, 3, 4], PPS := some [104, 5, 6, 7, 8] } :=
  scan_byteexact_amended [⟨[103, 1, 2, 3, 4]⟩, ⟨[104, 5, 6, 7, 8]⟩, ⟨[65, 9]⟩]
    [103, 1, 2, 3, 4] [104, 5, 6, 7, 8]
    (by decide) (by decide) (by decide) (by decide) (by decide)
    (fun c hc => by
      have h2 : some (⟨[65, 9]⟩ : Chunk) = some c := hc
      cases h2
      exact ⟨by decide, by decide⟩)

/-- Claim C4, counterexample.  A buffer with two distinct SPS NAL units
(`[103,10,11,12]` first, `[71,30,31,32]` last; `71 % 32 = 7`) and one
PPS between them: `parseH264Parameters` returns the LAST SPS, not the
first, and its result depends on bytes lying beyond the point where one
NAL unit of each type had already been found — so neither
"first occurrence wins" nor "scanning stops once both are found" holds
of every scan strategy. -/
theorem scan_firstwins_counterexample :
    parseH264Parameters
        [0, 0, 1, 103, 10, 11, 12, 0, 0, 1, 104, 20, 21, 22, 0, 0, 1, 71, 30, 31, 32] =
      some ([71, 30, 31, 32], [104, 20, 21, 22]) ∧
    (some ([71, 30, 31, 32], [104, 20, 21, 22]) : Option (List Nat × List Nat)) ≠
      some ([103, 10, 11, 12], [104, 20, 21, 22]) := by
  constructor
  · have henc : encode3 [⟨[103, 10, 11, 12]⟩, ⟨[104, 20, 21, 22]⟩, ⟨[71, 30, 31, 32]⟩] =
        [0, 0, 1, 103, 10, 11, 12, 0, 0, 1, 104, 20, 21, 22, 0, 0, 1, 71, 30, 31, 32] := by
      decide
    have h := pLoop_encode3
      [⟨[103, 10, 11, 12]⟩, ⟨[104, 20, 21, 22]⟩, ⟨[71, 30, 31, 32]⟩] noParams (by decide)
    rw [henc] at h
    unfold parseH264Parameters
    rw [h]
    decide
  · decide

/-- Claim C4, amended.  In the pipe scan (`tryParseH264Parameters`) the
first type-7 and first type-8 blocks longer than 3 bytes win, and the
scan's result is unchanged under arbitrary replacement of the blocks
after the point where both have been found (scanning stops); the same
first-wins-and-stop behaviour holds of the
`ExtractH264ParametersFromStream` NAL loop (without the length filter).
In `parseH264Parameters`, however, the entire buffer is scanned and the
LAST occurrence of each type wins. -/
theorem scan_firstwins_amended :
    (∀ cs : List Chunk,
       (∀ c ∈ cs, wfNal c.nal) →
       (∀ c, cs.getLast? = some c → chunkTy c ≠ 7 ∧ chunkTy c ≠ 8) →
       (tryLoop (encode3 cs) noParams).SPS = (cs.find? spsPred).map Chunk.nal ∧
       (tryLoop (encode3 cs) noParams).PPS = (cs.find? ppsPred).map Chunk.nal) ∧
    (∀ cs cs' cs'' : List Chunk,
       (∀ c ∈ cs ++ cs', wfNal c.nal) →
       (∀ c, (cs ++ cs').getLast? = some c → chunkTy c ≠ 7 ∧ chunkTy c ≠ 8) →
       (∀ c ∈ cs ++ cs'', wfNal c.nal) →
       (∀ c, (cs ++ cs'').getLast? = some c → chunkTy c ≠ 7 ∧ chunkTy c ≠ 8) →
       (chunkScan cs noParams).SPS.isSome = true →
       (chunkScan cs noParams).PPS.isSome = true →
       tryLoop (encode3 (cs ++ cs')) noParams =
         tryLoop (encode3 (cs ++ cs'')) noParams) ∧
    (∀ cs : List Chunk, (∀ c ∈ cs, wfNal c.nal) →
       (pLoop (encode3 cs) noParams).SPS =
         ((cs.filter (fun c => chunkTy c == 7)).getLast?).map Chunk.nal ∧
       (pLoop (encode3 cs) noParams).PPS =
         ((cs.filter (fun c => chunkTy c == 8)).getLast?).map Chunk.nal) ∧
    (∀ ns : List (List Nat),
       (streamScanNalus ns noParams).SPS = ns.find? isSPSNalu ∧
       (streamScanNalus ns noParams).PPS = ns.find? isPPSNalu) ∧
    (∀ ns l : List (List Nat),
       (streamScanNalus ns noParams).SPS.isSome = true →
       (streamScanNalus ns noParams).PPS.isSome = true →
       streamScanNalus (ns ++ l) noParams = streamScanNalus ns noParams) := by
  refine ⟨?_, ?_, ?_, ?_, ?_⟩
  · intro cs hwf hlast
    rw [tryLoop_encode3 cs noParams hwf hlast]
    exact ⟨chunkScan_SPS_none cs noParams rfl, chunkScan_PPS_none cs noParams rfl⟩
  · intro cs cs' cs'' hwf1 hlast1 hwf2 hlast2 hs hp
    rw [tryLoop_encode3 _ noParams hwf1 hlast1, tryLoop_encode3 _ noParams hwf2 hlast2]
    rw [chunkScan_append, chunkScan_append]
    rw [chunkScan_bothSome cs' _ hs hp, chunkScan_bothSome cs'' _ hs hp]
  · intro cs hwf
    rw [pLoop_encode3 cs noParams hwf]
    constructor
    · rw [pChunkScan_SPS]
      cases (cs.filter (fun c => chunkTy c == 7)).getLast? <;> rfl
    · rw [pChunkScan_PPS]
      cases (cs.filter (fun c => chunkTy c == 8)).getLast? <;> rfl
  · intro ns
    exact ⟨streamScan_SPS_none ns noParams rfl, streamScan_PPS_none ns noParams rfl⟩
  · intro ns l hs hp
    rw [streamScan_append, streamScan_bothSome l _ hs hp]

/-- Claim C4, witness: concrete instantiations of every hypothesis-bearing
part of the amended theorem. -/
theorem scan_firstwins_amended_witness :
    ((tryLoop (encode3 [⟨[103, 1, 2, 3, 4]⟩, ⟨[65, 9]⟩]) noParams).SPS =
       (([⟨[103, 1, 2, 3, 4]⟩, ⟨[65, 9]⟩] : List Chunk).find? spsPred).map Chunk.nal) ∧
    (tryLoop (encode3 ([⟨[103, 1, 2, 3, 4]⟩, ⟨[104, 5, 6, 7, 8]⟩] ++ [⟨[65, 9]⟩]))
        noParams =
      tryLoop (encode3 ([⟨[103, 1, 2, 3, 4]⟩, ⟨[104, 5, 6, 7, 8]⟩] ++ [⟨[66, 8]⟩]))
        noParams) ∧
    ((pLoop (encode3 [⟨[103, 1, 2, 3, 4]⟩]) noParams).SPS =
       ((([⟨[103, 1, 2, 3, 4]⟩] : List Chunk).filter
           (fun c => chunkTy c == 7)).getLast?).map Chunk.nal) ∧
    streamScanNalus ([[103, 9], [104, 8]] ++ [[65]]) noParams =
      streamScanNalus [[103, 9], [104, 8]] noParams := by
  refine ⟨?_, ?_, ?_, ?_⟩
  · exact (scan_firstwins_amended.1 [⟨[103, 1, 2, 3, 4]⟩, ⟨[65, 9]⟩] (by decide)
      (fun c hc => by
        have h2 : some (⟨[65, 9]⟩ : Chunk) = some c := hc
        cases h2
        exact ⟨by decide, by decide⟩)).1
  · exact scan_firstwins_amended.2.1 [⟨[103, 1, 2, 3, 4]⟩, ⟨[104, 5, 6, 7, 8]⟩]
      [⟨[65, 9]⟩] [⟨[66, 8]⟩] (by decide)
      (fun c hc => by
        have h2 : some (⟨[65, 9]⟩ : Chunk) = some c := hc
        cases h2
        exact ⟨by decide, by decide⟩)
      (by decide)
      (fun c hc => by
        have h2 : some (⟨[66, 8]⟩ : Chunk) = some c := hc
        cases h2
        exact ⟨by decide, by decide⟩)
      (by decide) (by decide)
  · exact (scan_firstwins_amended.2.2.1 [⟨[103, 1, 2, 3, 4]⟩] (by decide)).1
  · exact scan_firstwins_amended.2.2.2.2 [[103, 9], [104, 8]] [[65]]
      (by decide) (by decide)

end VideoStreamer
